import Mathlib

/-!
Shallow embedding of the extraction verification / repair pipeline of
`process_forms.py` and `extraction/utils.py` (ONETECH-BACK-PROD).

Modelling conventions:
* Python/JSON values are the inductive `Val`; dicts are insertion-ordered
  association lists with unique keys (as produced by `json.loads`).
* Python ints and floats are exact rationals (`ℚ`) with an `isFloat` flag
  recording which of the two Python types the value had; the flag only
  affects `str(...)` rendering.  Binary floating-point rounding is not
  modelled.
* Python exceptions are `Except Val`; the carried `Val` is the state of
  the record at the moment the exception is raised, which is what the
  enclosing `try/except` blocks of the source keep working with.
* The external vision-model gateway is an oracle `Nat → GwResp` indexed
  by the number of `generate_content` calls made so far.
-/

set_option autoImplicit false
set_option maxHeartbeats 1000000

namespace FormsPipeline

/-- Python/JSON runtime values as they flow through the pipeline. -/
inductive Val where
  | null
  | bool (b : Bool)
  | num (q : ℚ) (isFloat : Bool)
  | str (s : String)
  | list (xs : List Val)
  | dict (entries : List (String × Val))
deriving Repr

/-- Python truthiness (`bool(v)`). -/
def pyTruthy : Val → Bool
  | .null => false
  | .bool b => b
  | .num q _ => q != 0
  | .str s => s != ""
  | .list xs => !xs.isEmpty
  | .dict es => !es.isEmpty

/-- First-match lookup in an insertion-ordered dict. -/
def listLookup : List (String × Val) → String → Option Val
  | [], _ => Option.none
  | (k, v) :: t, key => if k == key then some v else listLookup t key

/-- `d[k] = v`: update the first binding of `k` in place, else append
(Python dicts keep the original position of an updated key). -/
def dictSet : List (String × Val) → String → Val → List (String × Val)
  | [], k, v => [(k, v)]
  | (k', v') :: t, k, v =>
    if k' == k then (k, v) :: t else (k', v') :: dictSet t k v

/-- `k in d`. -/
def dictMem (es : List (String × Val)) (k : String) : Bool :=
  (listLookup es k).isSome

/-- `d.get(k)` (absent key ↦ `None`). -/
def dictGetD (es : List (String × Val)) (k : String) : Val :=
  (listLookup es k).getD .null

/-- `d.setdefault(k, v)`. -/
def dictSetDefault (es : List (String × Val)) (k : String) (v : Val) :
    List (String × Val) :=
  if dictMem es k then es else es ++ [(k, v)]

def boolQ (b : Bool) : ℚ := if b then 1 else 0

/-- Python `==` on values, with structural fuel (the constant fuel used
below exceeds the size of every value arising in this development;
Python's numeric tower makes `True == 1` and `1 == 1.0` hold, and dict
equality ignores order).  The three components compare two values, two
lists elementwise, and the entries of a dict against another dict; the
recursion is realized with `Nat.rec` so that evaluation unfolds lazily. -/
def pyEqRec : Nat →
    (Val → Val → Bool) × (List Val → List Val → Bool) ×
      (List (String × Val) → List (String × Val) → Bool) :=
  Nat.rec
    (fun _ _ => false, fun _ _ => false, fun _ _ => false)
    (fun _ ih =>
      ( fun a b =>
          match a, b with
          | .null, .null => true
          | .bool x, .bool y => x == y
          | .bool x, .num q _ => boolQ x == q
          | .num q _, .bool y => q == boolQ y
          | .num p _, .num q _ => p == q
          | .str s, .str t => s == t
          | .list xs, .list ys => ih.2.1 xs ys
          | .dict xs, .dict ys => (xs.length == ys.length) && ih.2.2 xs ys
          | _, _ => false
      , fun xs ys =>
          match xs, ys with
          | [], [] => true
          | x :: xs, y :: ys => ih.1 x y && ih.2.1 xs ys
          | _, _ => false
      , fun es ys =>
          match es with
          | [] => true
          | (k, v) :: rest =>
            (match listLookup ys k with
             | some w => ih.1 v w
             | Option.none => false) && ih.2.2 rest ys))

def pyEqF (n : Nat) (a b : Val) : Bool := (pyEqRec n).1 a b

def pyEqLF (n : Nat) (xs ys : List Val) : Bool := (pyEqRec n).2.1 xs ys

def pyEqDF (n : Nat) (xs ys : List (String × Val)) : Bool :=
  (pyEqRec n).2.2 xs ys

def eqFuel : Nat := 1000000

def pyEq (a b : Val) : Bool := pyEqF eqFuel a b

/-- `v in (None, '', 'null')` — the pipeline's pervasive "empty" test. -/
def isNEN : Val → Bool
  | .null => true
  | .str s => s == "" || s == "null"
  | _ => false

/-- `v in (None, '', 'null', [])` (the completeness test of the
confidence-retry loop). -/
def isNENL : Val → Bool
  | .null => true
  | .str s => s == "" || s == "null"
  | .list xs => xs.isEmpty
  | _ => false

/-! ### String helpers (ASCII plus the French accented letters that the
source manipulates; Python's full Unicode case folding is not needed for
any value the pipeline treats specially). -/

def isWS (c : Char) : Bool :=
  c == ' ' || c == '\t' || c == '\n' || c == '\r' ||
  c == Char.ofNat 11 || c == Char.ofNat 12

def lstripL (l : List Char) : List Char := l.dropWhile isWS

def rstripL (l : List Char) : List Char := (l.reverse.dropWhile isWS).reverse

def stripL (l : List Char) : List Char := rstripL (lstripL l)

/-- Python `str.strip()`. -/
def pyStrip (s : String) : String := String.mk (stripL s.data)

/-- Accented lowercase/uppercase pairs used by the forms (subset of Unicode
case mapping sufficient for the strings occurring in the pipeline). -/
def accentPairs : List (Char × Char) :=
  [('é', 'É'), ('è', 'È'), ('ê', 'Ê'), ('ë', 'Ë'), ('à', 'À'), ('â', 'Â'),
   ('ç', 'Ç'), ('î', 'Î'), ('ï', 'Ï'), ('ô', 'Ô'), ('ù', 'Ù'), ('û', 'Û'),
   ('ü', 'Ü')]

def pyUpperChar (c : Char) : Char :=
  match accentPairs.find? (fun p => p.1 == c) with
  | some p => p.2
  | none => c.toUpper

def pyLowerChar (c : Char) : Char :=
  match accentPairs.find? (fun p => p.2 == c) with
  | some p => p.1
  | none => c.toLower

/-- Python `str.upper()`. -/
def pyUpper (s : String) : String := String.mk (s.data.map pyUpperChar)

/-- Python `str.lower()`. -/
def pyLower (s : String) : String := String.mk (s.data.map pyLowerChar)

/-- Python `str.isdigit()` (restricted to ASCII digits). -/
def pyIsDigit (s : String) : Bool :=
  !s.isEmpty && s.data.all Char.isDigit

/-- `re.sub(r'[^0-9]', '', s)` / `re.sub(r'[^\d]', '', s)`. -/
def digitsOf (s : String) : String :=
  String.mk (s.data.filter Char.isDigit)

def digitVal (c : Char) : Nat := c.toNat - 48

/-- Numeric value of a digit string (`int(s)` for `s.isdigit()`). -/
def natOfDigits (l : List Char) : Nat :=
  l.foldl (fun acc c => 10 * acc + digitVal c) 0

def natOfDigitsS (s : String) : Nat := natOfDigits s.data

/-- Python `int(s)` on a string: strip whitespace, optional sign,
nonempty digits (digit-group underscores are not modelled). -/
def pyIntOfStr (s : String) : Option ℤ :=
  match stripL s.data with
  | '-' :: ds =>
    if !ds.isEmpty && ds.all Char.isDigit then some (-(natOfDigits ds : ℤ))
    else Option.none
  | '+' :: ds =>
    if !ds.isEmpty && ds.all Char.isDigit then some ((natOfDigits ds : ℤ))
    else Option.none
  | ds =>
    if !ds.isEmpty && ds.all Char.isDigit then some ((natOfDigits ds : ℤ))
    else Option.none

/-- If `pat` is a prefix of `l`, return the remainder. -/
def dropPrefixL : List Char → List Char → Option (List Char)
  | [], l => some l
  | _ :: _, [] => Option.none
  | p :: ps, c :: cs => if p == c then dropPrefixL ps cs else Option.none

/-- Python `str.replace(pat, rep)` for a nonempty pattern: leftmost,
non-overlapping, replace all.  Structural fuel (one unit per input
character is enough, since each step consumes at least one). -/
def replaceF (p : Char) (ps rep : List Char) : Nat → List Char → List Char
  | 0, l => l
  | Nat.succ _, [] => []
  | Nat.succ n, c :: rest =>
    match dropPrefixL (p :: ps) (c :: rest) with
    | some rem => rep ++ replaceF p ps rep n rem
    | Option.none => c :: replaceF p ps rep n rest

/-- Python `str.replace` (the source only replaces nonempty literals). -/
def pyReplace (s pat rep : String) : String :=
  match pat.data with
  | [] => s
  | p :: ps => String.mk (replaceF p ps rep.data s.data.length s.data)

/-- Does `needle` occur as a contiguous substring? -/
def containsSub (needle : List Char) : List Char → Bool
  | [] => (dropPrefixL needle []).isSome
  | c :: rest =>
    (dropPrefixL needle (c :: rest)).isSome || containsSub needle rest

/-- Suffix of `l` after the first occurrence of `needle`. -/
def afterFirst (needle : List Char) : List Char → Option (List Char)
  | [] => dropPrefixL needle []
  | c :: rest =>
    match dropPrefixL needle (c :: rest) with
    | some rem => some rem
    | Option.none => afterFirst needle rest

/-- Prefix of `l` before the first occurrence of `needle`. -/
def beforeFirst (needle : List Char) : List Char → Option (List Char)
  | [] => if (dropPrefixL needle []).isSome then some [] else Option.none
  | c :: rest =>
    if (dropPrefixL needle (c :: rest)).isSome then some []
    else match beforeFirst needle rest with
      | some pre => some (c :: pre)
      | Option.none => Option.none

/-- Python `str.__contains__` on strings. -/
def strContains (hay needle : String) : Bool :=
  containsSub needle.data hay.data

/-- Python `str.split(sep)` for a single-character separator. -/
def splitOnCharL (sep : Char) : List Char → List (List Char)
  | [] => [[]]
  | c :: rest =>
    let r := splitOnCharL sep rest
    if c == sep then [] :: r
    else match r with
      | h :: t => (c :: h) :: t
      | [] => [[c]]

def pySplitChar (s : String) (sep : Char) : List String :=
  (splitOnCharL sep s.data).map String.mk

def isAlphaPy (c : Char) : Bool :=
  c.isAlpha || c == 'é' || c == 'è' || c == 'ê' || c == 'ë' || c == 'à' ||
  c == 'â' || c == 'ç' || c == 'î' || c == 'ï' || c == 'ô' || c == 'ù' ||
  c == 'û' || c == 'ü' || c == 'É' || c == 'È' || c == 'Ê' || c == 'Ë' ||
  c == 'À' || c == 'Â' || c == 'Ç' || c == 'Î' || c == 'Ï' || c == 'Ô' ||
  c == 'Ù' || c == 'Û' || c == 'Ü'

def titleL : List Char → Bool → List Char
  | [], _ => []
  | c :: rest, prevAlpha =>
    (if isAlphaPy c then (if prevAlpha then pyLowerChar c else pyUpperChar c)
     else c) :: titleL rest (isAlphaPy c)

/-- Python `str.title()`. -/
def pyTitle (s : String) : String := String.mk (titleL s.data false)

/-! ### Numeric helpers -/

/-- Python `int(x)` on a number: truncation toward zero. -/
def pyTruncQ (q : ℚ) : ℤ := if 0 ≤ q then Rat.floor q else -(Rat.floor (-q))

/-- Is the rational an integer (`float.is_integer`)? -/
def qIsInt (q : ℚ) : Bool := q.den == 1

/-- Decimal rendering `str(float)` for rationals with a finite decimal
expansion of at most `fuel` fractional digits; falls back to a
fraction rendering (this only ever feeds human-readable log strings). -/
def decimalFrac (fuel : Nat) (q : ℚ) : Option String :=
  match fuel with
  | 0 => if q == 0 then some "" else Option.none
  | Nat.succ n =>
    if q == 0 then some "" else
    let d : ℤ := Rat.floor (q * 10)
    match decimalFrac n (q * 10 - (d : ℚ)) with
    | some s => some (toString d ++ s)
    | Option.none => Option.none

def renderQ (q : ℚ) (isFloat : Bool) : String :=
  if q.den == 1 then
    if isFloat then toString q.num ++ ".0" else toString q.num
  else
    let sign := if q < 0 then "-" else ""
    let a : ℚ := if q < 0 then -q else q
    let ip : ℤ := Rat.floor a
    match decimalFrac 40 (a - (ip : ℚ)) with
    | some s => sign ++ toString ip ++ "." ++ s
    | Option.none => sign ++ toString a.num ++ "/" ++ toString a.den

/-- Python `str(v)` with structural fuel (rendering of lists/dicts is
approximate — the pipeline only ever embeds them into diagnostic log
strings).  As for `pyEqRec`, the recursion goes through `Nat.rec` for
lazy unfolding; the components render a value, a list body and a dict
body. -/
def pyStrRec : Nat →
    (Val → String) × (List Val → String) × (List (String × Val) → String) :=
  Nat.rec
    (fun _ => "", fun _ => "", fun _ => "")
    (fun _ ih =>
      ( fun v =>
          match v with
          | .null => "None"
          | .bool b => if b then "True" else "False"
          | .num q f => renderQ q f
          | .str s => s
          | .list xs => "[" ++ ih.2.1 xs ++ "]"
          | .dict es => "\x7b" ++ ih.2.2 es ++ "\x7d"
      , fun xs =>
          match xs with
          | [] => ""
          | [x] => ih.1 x
          | x :: xs => ih.1 x ++ ", " ++ ih.2.1 xs
      , fun es =>
          match es with
          | [] => ""
          | [(k, v)] => "\x27" ++ k ++ "\x27: " ++ ih.1 v
          | (k, v) :: es =>
            "\x27" ++ k ++ "\x27: " ++ ih.1 v ++ ", " ++ ih.2.2 es))

def pyStrF (n : Nat) (v : Val) : String := (pyStrRec n).1 v

def pyStrLF (n : Nat) (xs : List Val) : String := (pyStrRec n).2.1 xs

def pyStrDF (n : Nat) (es : List (String × Val)) : String :=
  (pyStrRec n).2.2 es

def pyStr (v : Val) : String := pyStrF eqFuel v

/-! ### `extraction/utils.py` -/

/-- `_ROMAN_MAP` (also `ROMAN_MAP` of `process_forms.py`). -/
def romanMap (i : ℤ) : Option String :=
  if i == 1 then some ("I") else if i == 2 then some ("II")
  else if i == 3 then some ("III") else if i == 4 then some ("IV")
  else if i == 5 then some ("V") else if i == 6 then some ("VI")
  else if i == 7 then some ("VII") else if i == 8 then some ("VIII")
  else if i == 9 then some ("IX") else if i == 10 then some ("X")
  else Option.none

/-- `_ALLOWED_ROMANS` / `VALID_ROMANS`. -/
def allowedRomans : List String :=
  ["I", "II", "III", "IV", "V", "VI", "VII", "VIII", "IX", "X"]

/-- Python `int(value)` for an int/float/bool operand (`isinstance(value,
(int, float))` is satisfied by `bool` as well). -/
def pyIntOfNum : Val → Option ℤ
  | .bool b => some (if b then 1 else 0)
  | .num q _ => some (pyTruncQ q)
  | _ => Option.none

/-- `normalize_uap` of `extraction/utils.py`. -/
def normalizeUap (value : Val) : Option String :=
  match value with
  | .null => Option.none
  | v =>
    match pyIntOfNum v with
    | some iv => if 0 < iv && iv < 1000 then some (toString iv) else Option.none
    | Option.none =>
      let s0 := pyUpper (pyStrip (pyStr v))
      let s1 := pyStrip (pyReplace s0 ("UAP") (""))
      let s2 := digitsOf s1
      if s2 == "" then Option.none
      else if s2.length > 3 then Option.none
      else some s2

def isRomanChar (c : Char) : Bool :=
  c == 'I' || c == 'V' || c == 'X' || c == 'L' || c == 'C' || c == 'D' ||
  c == 'M'

/-- String branch of `normalize_equipe`
(`str(value).strip().upper().replace(...)…` onwards); the argument is
`str(value)`. -/
def equipeFromStr (sv : String) : Option String :=
  let s := pyStrip (pyReplace (pyReplace (pyReplace
    (pyUpper (pyStrip sv)) ("É") ("E")) ("EQUIPE") ("")) ("TEAM") (""))
  if pyIsDigit s then romanMap (natOfDigitsS s : ℤ)
  else
    let s2 := String.mk (s.data.filter isRomanChar)
    if allowedRomans.contains s2 then some s2 else Option.none

/-- `normalize_equipe` of `extraction/utils.py`. -/
def normalizeEquipe (value : Val) : Option String :=
  match value with
  | .null => Option.none
  | v =>
    match pyIntOfNum v with
    | some iv => romanMap iv
    | Option.none => equipeFromStr (pyStr v)

/-! ### Numeric coercion helpers of `process_forms.py` -/

/-- Fractional-part value of a digit list (`0.d₁d₂…`). -/
def fracOfDigits (l : List Char) : ℚ :=
  (natOfDigits l : ℚ) / ((10 : ℚ) ^ l.length)

/-- `re.fullmatch(r"\d+(\.\d+)?", s)` together with `float(s)`. -/
def parseDecCore (l : List Char) : Option ℚ :=
  let p := l.span Char.isDigit
  if p.1.isEmpty then Option.none
  else
    match p.2 with
    | [] => some (natOfDigits p.1 : ℚ)
    | '.' :: fs =>
      if !fs.isEmpty && fs.all Char.isDigit then
        some ((natOfDigits p.1 : ℚ) + fracOfDigits fs)
      else Option.none
    | _ => Option.none

/-- `re.fullmatch(r"-?\d+(\.\d+)?", s)` together with `float(s)` (exact
rational; binary-float rounding not modelled). -/
def parseSignedDec (s : String) : Option ℚ :=
  match s.data with
  | '-' :: rest => (parseDecCore rest).map (fun q => -q)
  | l => parseDecCore l

/-- `_parse_number` of `process_forms.py` (Rebut deduplication).  The
result records the numeric value; for int/float/bool inputs the value is
returned as-is, strings go through strip + comma-to-dot + the signed
decimal regex. -/
def parseNumber : Val → Option ℚ
  | .bool b => some (boolQ b)
  | .num q _ => some q
  | .str s => parseSignedDec (pyReplace (pyStrip s) (",") ("."))
  | _ => Option.none

/-- `_to_number` of `process_forms.py` (Kosu): strip, comma→dot, remove
spaces, signed decimal; int if integral else float. -/
def toNumber : Val → Option Val
  | .bool b => some (.bool b)
  | .num q f => some (.num q f)
  | .str s =>
    match parseSignedDec (pyReplace (pyReplace (pyStrip s) (",") (".")) (" ") ("")) with
    | some q => some (if qIsInt q then .num q false else .num q true)
    | Option.none => Option.none
  | _ => Option.none

/-! ### Date normalization (`normalize_date_value`) -/

inductive DTag where
  | dmy
  | ymd
  | dmy2
  | frenchMonth

def spanDigits (l : List Char) : List Char × List Char := l.span Char.isDigit

/-- `$` in a Python regex also matches just before a final newline. -/
def reEndOk : List Char → Bool
  | [] => true
  | ['\n'] => true
  | _ => false

/-- Match `^(\d{m₁..n₁}) sep (\d{m₂..n₂}) sep (\d{m₃..n₃})$` where both
separators are single characters drawn from `sepOk` (the source's
character classes — slash-or-dash, or dot — allow the two separators of
one date to differ). -/
def matchSepDate (sepOk : Char → Bool) (lo1 hi1 lo2 hi2 lo3 hi3 : Nat)
    (l : List Char) : Option (String × String × String) :=
  let p1 := spanDigits l
  if !(lo1 ≤ p1.1.length && p1.1.length ≤ hi1) then Option.none
  else
    match p1.2 with
    | s1 :: r2 =>
      if !sepOk s1 then Option.none
      else
        let p2 := spanDigits r2
        if !(lo2 ≤ p2.1.length && p2.1.length ≤ hi2) then Option.none
        else
          match p2.2 with
          | s2 :: r4 =>
            if !sepOk s2 then Option.none
            else
              let p3 := spanDigits r4
              if (lo3 ≤ p3.1.length && p3.1.length ≤ hi3) && reEndOk p3.2 then
                some (String.mk p1.1, String.mk p2.1, String.mk p3.1)
              else Option.none
          | [] => Option.none
    | [] => Option.none

/-- Match `^(\d{1,2})\s+(\d{1,2})\s+(\d{4})$`. -/
def matchSpaceDate (l : List Char) : Option (String × String × String) :=
  let p1 := spanDigits l
  if !(1 ≤ p1.1.length && p1.1.length ≤ 2) then Option.none
  else
    let w1 := p1.2.span isWS
    if w1.1.isEmpty then Option.none
    else
      let p2 := spanDigits w1.2
      if !(1 ≤ p2.1.length && p2.1.length ≤ 2) then Option.none
      else
        let w2 := p2.2.span isWS
        if w2.1.isEmpty then Option.none
        else
          let p3 := spanDigits w2.2
          if (p3.1.length == 4) && reEndOk p3.2 then
            some (String.mk p1.1, String.mk p2.1, String.mk p3.1)
          else Option.none

def frenchMonthNames : List (String × String) :=
  [("janvier", "01"), ("février", "02"), ("fevrier", "02"), ("mars", "03"),
   ("avril", "04"), ("mai", "05"), ("juin", "06"), ("juillet", "07"),
   ("août", "08"), ("aout", "08"), ("septembre", "09"), ("octobre", "10"),
   ("novembre", "11"), ("décembre", "12"), ("decembre", "12")]

/-- Try the month-name alternation (case-insensitively, on an
already-lowercased list); no name is a prefix of another, so first match
is the regex match. -/
def matchMonthName : List (String × String) → List Char →
    Option (String × List Char)
  | [], _ => Option.none
  | (name, _) :: rest, l =>
    match dropPrefixL name.data l with
    | some rem => some (name, rem)
    | Option.none => matchMonthName rest l

/-- Match `^(\d{1,2})\s+(month names…)\s+(\d{4})$` with `re.IGNORECASE`
(the group returned for the month is the matched name, lowercased — the
source immediately lowercases it for the dictionary lookup). -/
def matchFrenchDate (l : List Char) : Option (String × String × String) :=
  let low := l.map pyLowerChar
  let p1 := spanDigits low
  if !(1 ≤ p1.1.length && p1.1.length ≤ 2) then Option.none
  else
    let w1 := p1.2.span isWS
    if w1.1.isEmpty then Option.none
    else
      match matchMonthName frenchMonthNames w1.2 with
      | Option.none => Option.none
      | some (name, rem) =>
        let w2 := rem.span isWS
        if w2.1.isEmpty then Option.none
        else
          let p3 := spanDigits w2.2
          if (p3.1.length == 4) && reEndOk p3.2 then
            some (String.mk p1.1, name, String.mk p3.1)
          else Option.none

def isSlashDash (c : Char) : Bool := c == '/' || c == '-'

def isDot (c : Char) : Bool := c == '.'

/-- Match `^(\d{2})(\d{2})(\d{4})$`. -/
def matchDDMMYYYY (l : List Char) : Option (String × String × String) :=
  let p := spanDigits l
  if (p.1.length == 8) && reEndOk p.2 then
    some (String.mk (p.1.take 2), String.mk ((p.1.drop 2).take 2),
      String.mk (p.1.drop 4))
  else Option.none

/-- The ordered pattern table of `normalize_date_value`. -/
def datePatterns :
    List ((List Char → Option (String × String × String)) × DTag) :=
  [(matchSepDate isSlashDash 1 2 1 2 4 4, .dmy),
   (matchSepDate isDot 1 2 1 2 4 4, .dmy),
   (matchSpaceDate, .dmy),
   (matchSepDate isSlashDash 4 4 1 2 1 2, .ymd),
   (matchSepDate isDot 4 4 1 2 1 2, .ymd),
   (matchSepDate isSlashDash 1 2 1 2 2 2, .dmy2),
   (matchSepDate isDot 1 2 1 2 2 2, .dmy2),
   (matchDDMMYYYY, .dmy),
   (matchFrenchDate, .frenchMonth)]

def frenchMonthLookup (name : String) : String :=
  match frenchMonthNames.lookup name with
  | some v => v
  | Option.none => "01"

/-- The `(day, month, year)` integers a matched pattern yields, before
any validation (`match.groups()` reordering plus the two-digit-year and
month-name conversions of the loop body). -/
def dateTripleOfMatch (tag : DTag) (g : String × String × String) :
    Nat × Nat × Nat :=
  match tag with
  | .dmy => (natOfDigitsS g.1, natOfDigitsS g.2.1, natOfDigitsS g.2.2)
  | .ymd => (natOfDigitsS g.2.2, natOfDigitsS g.2.1, natOfDigitsS g.1)
  | .dmy2 =>
    (natOfDigitsS g.1, natOfDigitsS g.2.1,
      natOfDigitsS ((if natOfDigitsS g.2.2 < 50 then "20" else "19") ++ g.2.2))
  | .frenchMonth =>
    (natOfDigitsS g.1, natOfDigitsS (frenchMonthLookup g.2.1),
      natOfDigitsS g.2.2)

def isLeapYear (y : Nat) : Bool :=
  y % 4 == 0 && (y % 100 != 0 || y % 400 == 0)

def daysInMonth (m y : Nat) : Nat :=
  if m == 1 || m == 3 || m == 5 || m == 7 || m == 8 || m == 10 || m == 12
  then 31
  else if m == 4 || m == 6 || m == 9 || m == 11 then 30
  else if m == 2 then (if isLeapYear y then 29 else 28)
  else 0

/-- `datetime(year, month, day)` succeeds (for month already in 1..12 and
year in the range the source admits). -/
def isRealDate (d m y : Nat) : Bool := 1 ≤ d && d ≤ daysInMonth m y

def pad2 (n : Nat) : String := if n < 10 then "0" ++ toString n else toString n

def pad4 (n : Nat) : String :=
  if n < 10 then "000" ++ toString n
  else if n < 100 then "00" ++ toString n
  else if n < 1000 then "0" ++ toString n
  else toString n

/-- One iteration of the pattern loop: `None` covers both "no match" and
the `continue` taken on any failed validation. -/
def tryDatePattern (m : List Char → Option (String × String × String))
    (tag : DTag) (dateStr : String) : Option String :=
  match m dateStr.data with
  | Option.none => Option.none
  | some g =>
    let t := dateTripleOfMatch tag g
    if !(1 ≤ t.1 && t.1 ≤ 31) then Option.none
    else if !(1 ≤ t.2.1 && t.2.1 ≤ 12) then Option.none
    else if !(1900 ≤ t.2.2 && t.2.2 ≤ 2100) then Option.none
    else if !isRealDate t.1 t.2.1 t.2.2 then Option.none
    else some (pad2 t.1 ++ "/" ++ pad2 t.2.1 ++ "/" ++ pad4 t.2.2)

def normalizeDateLoop :
    List ((List Char → Option (String × String × String)) × DTag) →
    String → Option String
  | [], _ => Option.none
  | (m, tag) :: rest, s =>
    match tryDatePattern m tag s with
    | some r => some r
    | Option.none => normalizeDateLoop rest s

/-- `normalize_date_value` of `process_forms.py` (the entry test
`date_value is None or date_value == '' or date_value == 'null'` is
exactly `isNEN`). -/
def normalizeDateValue (v : Val) : Option String :=
  if isNEN v then Option.none
  else
    let dateStr := pyStrip (pyStr v)
    if dateStr == "" then Option.none
    else
      match normalizeDateLoop datePatterns dateStr with
      | some r => some r
      | Option.none =>
        if pyIsDigit dateStr && dateStr.length ≤ 5 then some dateStr
        else Option.none

/-- All `(day, month, year)` triples produced by patterns of `ps`
matching the input. -/
def dateTriplesOfAux
    (ps : List ((List Char → Option (String × String × String)) × DTag))
    (dateStr : String) : List (Nat × Nat × Nat) :=
  ps.filterMap (fun p =>
    (p.1 dateStr.data).map (fun g => dateTripleOfMatch p.2 g))

/-- All `(day, month, year)` triples produced by patterns matching the
(stripped) input — used to state claims about inputs "whose triple" is of
a given form. -/
def dateTriplesOf (dateStr : String) : List (Nat × Nat × Nat) :=
  dateTriplesOfAux datePatterns dateStr

/-! ### `json.loads` (the subset relevant to model output: objects,
arrays, strings with the standard escapes, numbers, literals; the
`NaN`/`Infinity` extensions of Python's decoder are not representable in
`ℚ` and are left out). -/

def jsonWS (c : Char) : Bool :=
  c == ' ' || c == '\t' || c == '\n' || c == '\r'

def lbrace : Char := Char.ofNat 123
def rbrace : Char := Char.ofNat 125

def hexVal (c : Char) : Option Nat :=
  if c.isDigit then some (c.toNat - 48)
  else if 'a' ≤ c && c ≤ 'f' then some (c.toNat - 87)
  else if 'A' ≤ c && c ≤ 'F' then some (c.toNat - 55)
  else Option.none

def isLoSurrogate (n : Nat) : Bool := 0xDC00 ≤ n && n ≤ 0xDFFF

def isHiSurrogate (n : Nat) : Bool := 0xD800 ≤ n && n ≤ 0xDBFF

/-- Parse the body of a JSON string (after the opening quote); fuel is
one unit per consumed character. -/
def jsonStringBodyF : Nat → List Char → Option (List Char × List Char)
  | 0, _ => Option.none
  | Nat.succ _, [] => Option.none
  | Nat.succ _, '"' :: rest => some ([], rest)
  | Nat.succ n, '\\' :: esc =>
    match esc with
    | '"' :: r => (jsonStringBodyF n r).map (fun p => ('"' :: p.1, p.2))
    | '\\' :: r => (jsonStringBodyF n r).map (fun p => ('\\' :: p.1, p.2))
    | '/' :: r => (jsonStringBodyF n r).map (fun p => ('/' :: p.1, p.2))
    | 'b' :: r =>
      (jsonStringBodyF n r).map (fun p => (Char.ofNat 8 :: p.1, p.2))
    | 'f' :: r =>
      (jsonStringBodyF n r).map (fun p => (Char.ofNat 12 :: p.1, p.2))
    | 'n' :: r => (jsonStringBodyF n r).map (fun p => ('\n' :: p.1, p.2))
    | 'r' :: r => (jsonStringBodyF n r).map (fun p => ('\r' :: p.1, p.2))
    | 't' :: r => (jsonStringBodyF n r).map (fun p => ('\t' :: p.1, p.2))
    | 'u' :: h1 :: h2 :: h3 :: h4 :: r =>
      match hexVal h1, hexVal h2, hexVal h3, hexVal h4 with
      | some a, some b, some c, some d =>
        let m := ((a * 16 + b) * 16 + c) * 16 + d
        if isHiSurrogate m then
          match r with
          | '\\' :: 'u' :: g1 :: g2 :: g3 :: g4 :: r2 =>
            match hexVal g1, hexVal g2, hexVal g3, hexVal g4 with
            | some a2, some b2, some c2, some d2 =>
              let m2 := ((a2 * 16 + b2) * 16 + c2) * 16 + d2
              if isLoSurrogate m2 then
                (jsonStringBodyF n r2).map (fun p =>
                  (Char.ofNat (0x10000 + (m - 0xD800) * 0x400 + (m2 - 0xDC00))
                    :: p.1, p.2))
              else
                (jsonStringBodyF n r).map (fun p => (Char.ofNat m :: p.1, p.2))
            | _, _, _, _ =>
              (jsonStringBodyF n r).map (fun p => (Char.ofNat m :: p.1, p.2))
          | _ => (jsonStringBodyF n r).map (fun p => (Char.ofNat m :: p.1, p.2))
        else (jsonStringBodyF n r).map (fun p => (Char.ofNat m :: p.1, p.2))
      | _, _, _, _ => Option.none
    | _ => Option.none
  | Nat.succ n, c :: rest =>
    if c.toNat < 32 then Option.none
    else (jsonStringBodyF n rest).map (fun p => (c :: p.1, p.2))

def jsonStringBody (l : List Char) : Option (List Char × List Char) :=
  jsonStringBodyF (l.length + 1) l

/-- JSON number grammar `-?(0|[1-9]\d*)(\.\d+)?([eE][+-]?\d+)?`
(`isFloat` iff a fraction or exponent is present, as in Python). -/
def jsonNumber (l : List Char) : Option (Val × List Char) :=
  let signed : Bool := match l with | '-' :: _ => true | _ => false
  let l1 := match l with | '-' :: r => r | r => r
  let ip := spanDigits l1
  if ip.1.isEmpty then Option.none
  else if ip.1.length > 1 && ip.1.headD '0' == '0' then Option.none
  else
    let intVal : ℚ := (natOfDigits ip.1 : ℚ)
    let afterFrac :
        Option (ℚ × Bool × List Char) :=
      match ip.2 with
      | '.' :: fs =>
        let fp := spanDigits fs
        if fp.1.isEmpty then Option.none
        else some (intVal + fracOfDigits fp.1, true, fp.2)
      | r => some (intVal, false, r)
    match afterFrac with
    | Option.none => Option.none
    | some (v, isFrac, r) =>
      let afterExp : Option (ℚ × Bool × List Char) :=
        match r with
        | 'e' :: es | 'E' :: es =>
          let esign : Bool := match es with | '-' :: _ => true | _ => false
          let es1 := match es with
            | '-' :: t => t
            | '+' :: t => t
            | t => t
          let ep := spanDigits es1
          if ep.1.isEmpty then Option.none
          else
            let e : ℤ := (natOfDigits ep.1 : ℤ)
            some (v * (10 : ℚ) ^ (if esign then -e else e), true, ep.2)
        | _ => some (v, isFrac, r)
      match afterExp with
      | Option.none => Option.none
      | some (v2, isF, r2) =>
        some (.num (if signed then -v2 else v2) isF, r2)

mutual
def jsonVal : Nat → List Char → Option (Val × List Char)
  | 0, _ => Option.none
  | Nat.succ n, l =>
    match l.dropWhile jsonWS with
    | [] => Option.none
    | c :: rest =>
      if c == lbrace then jsonObj n (rest.dropWhile jsonWS) []
      else if c == '[' then jsonArr n (rest.dropWhile jsonWS) []
      else if c == '"' then
        (jsonStringBody rest).map (fun p => (.str (String.mk p.1), p.2))
      else if c == 't' then
        (dropPrefixL ("rue").data rest).map (fun r => (.bool true, r))
      else if c == 'f' then
        (dropPrefixL ("alse").data rest).map (fun r => (.bool false, r))
      else if c == 'n' then
        (dropPrefixL ("ull").data rest).map (fun r => (.null, r))
      else if c.isDigit || c == '-' then jsonNumber (c :: rest)
      else Option.none

/-- Object members, starting right after `{` (whitespace skipped);
duplicate keys: last value wins, first position kept (`dictSet`). -/
def jsonObj : Nat → List Char → List (String × Val) →
    Option (Val × List Char)
  | 0, _, _ => Option.none
  | Nat.succ n, l, acc =>
    match l with
    | [] => Option.none
    | c :: rest =>
      if c == rbrace && acc.isEmpty then some (.dict [], rest)
      else if c == '"' then
        match jsonStringBody rest with
        | Option.none => Option.none
        | some (kcs, r1) =>
          match r1.dropWhile jsonWS with
          | ':' :: r2 =>
            match jsonVal n r2 with
            | Option.none => Option.none
            | some (v, r3) =>
              let acc2 := dictSet acc (String.mk kcs) v
              match r3.dropWhile jsonWS with
              | ',' :: r4 => jsonObjNext n (r4.dropWhile jsonWS) acc2
              | c2 :: r4 =>
                if c2 == rbrace then some (.dict acc2, r4) else Option.none
              | [] => Option.none
          | _ => Option.none
      else Option.none

/-- After a comma inside an object a key must follow. -/
def jsonObjNext : Nat → List Char → List (String × Val) →
    Option (Val × List Char)
  | 0, _, _ => Option.none
  | Nat.succ n, l, acc =>
    match l with
    | '"' :: rest => jsonObj (Nat.succ n) ('"' :: rest) acc
    | _ => Option.none

def jsonArr : Nat → List Char → List Val → Option (Val × List Char)
  | 0, _, _ => Option.none
  | Nat.succ n, l, acc =>
    match l with
    | [] => Option.none
    | c :: rest =>
      if c == ']' && acc.isEmpty then some (.list [], rest)
      else
        match jsonVal n (c :: rest) with
        | Option.none => Option.none
        | some (v, r1) =>
          match r1.dropWhile jsonWS with
          | ',' :: r2 => jsonArr n (r2.dropWhile jsonWS) (acc ++ [v])
          | ']' :: r2 => some (.list (acc ++ [v]), r2)
          | _ => Option.none
end

/-- `json.loads` (success ↦ `some`, `JSONDecodeError` ↦ `none`). -/
def jsonLoads (s : String) : Option Val :=
  match jsonVal (s.length + 1) s.data with
  | some (v, rest) =>
    if (rest.dropWhile jsonWS).isEmpty then some v else Option.none
  | Option.none => Option.none

/-! ### JSON fence extraction and `safe_json_parse` -/

def fenceMarkerL : List Char := ("```json").data

def closeFenceL : List Char := ("```").data

/-- `JSON_FENCE in txt` plus
`re.search(r"```json\s*([\s\S]*?)\s*```", txt)`: the text to decode, or
`none` when the marker is present but the lazy pattern finds no closing
fence (`.group(1)` on `None` then raises in the raw call sites, and
`safe_json_parse` returns its default). -/
def extractFence (text : String) : Option String :=
  if containsSub fenceMarkerL text.data then
    match afterFirst fenceMarkerL text.data with
    | some rest =>
      match beforeFirst closeFenceL rest with
      | some mid => some (String.mk (stripL mid))
      | Option.none => Option.none
    | Option.none => Option.none
  else some text

/-- `default or {}`. -/
def defaultOr (d : Val) : Val := if pyTruthy d then d else .dict []

/-- `safe_json_parse` of `process_forms.py`. -/
def safeJsonParse (text : String) (dflt : Val) : Val :=
  if text == "" then defaultOr dflt
  else
    match extractFence text with
    | Option.none => defaultOr dflt
    | some t =>
      match jsonLoads t with
      | Option.none => defaultOr dflt
      | some .null => defaultOr dflt
      | some v => v

/-! ### Défauts mark normalization and refinement -/

def isTally (c : Char) : Bool := c == 'X' || c == '✓' || c == '✔'

/-- `normalize_defauts_mark` of `process_forms.py` (for numbers the
source computes `int(raw) if float(raw).is_integer() else int(raw)` —
both branches truncate). -/
def normalizeDefautsMark : Val → Option ℤ
  | .null => Option.none
  | .bool b => some (if b then 1 else 0)
  | .num q _ => some (pyTruncQ q)
  | .str raw =>
    let s := pyUpper (pyStrip raw)
    if s == "" then Option.none
    else if pyIsDigit s then some ((natOfDigitsS s : ℤ))
    else
      let p := spanDigits s.data
      if !p.1.isEmpty && p.2 == ['X'] then some ((natOfDigits p.1 : ℤ))
      else if !s.data.isEmpty && s.data.all isTally then
        some ((s.data.length : ℤ))
      else Option.none
  | _ => Option.none

/-! ### Rebut deduplication (`deduplicate_rebut_items`) -/

def pyOr (a b : Val) : Val := if pyTruthy a then a else b

def idxLookup : List (String × Nat) → String → Option Nat
  | [], _ => Option.none
  | (k, v) :: t, key => if k == key then some v else idxLookup t key

def idxSet : List (String × Nat) → String → Nat → List (String × Nat)
  | [], k, v => [(k, v)]
  | (k', v') :: t, k, v =>
    if k' == k then (k, v) :: t else (k', v') :: idxSet t k v

def rebutDescriptorFields : List String :=
  ["designation", "unit", "type", "reference_fjk"]

/-- Fill still-empty fields of `existing` from `row` (the sparse-branch
descriptor fill). -/
def fillFields (fields : List String) (rowEs : List (String × Val))
    (exEs : List (String × Val)) : List (String × Val) :=
  fields.foldl (fun acc f =>
    if isNEN (dictGetD acc f) && !isNEN (dictGetD rowEs f) then
      dictSet acc f (dictGetD rowEs f)
    else acc) exEs

/-- Rich-duplicate merge: iterate the new row's own entries in insertion
order, skipping `reference`. -/
def mergeRich (rowEs : List (String × Val))
    (exEs : List (String × Val)) : List (String × Val) :=
  rowEs.foldl (fun acc kv =>
    if kv.1 == "reference" then acc
    else if isNEN (dictGetD acc kv.1) && !isNEN kv.2 then
      dictSet acc kv.1 kv.2
    else acc) exEs

/-- The loop body of `deduplicate_rebut_items` over the original row
list; the mutable row dicts live in `rows` (indexed), `byRef` maps a
normalized reference to the index of its retained row.  An exception
(non-dict row, or a truthy non-string reference hitting `.strip()`)
carries the in-place-mutated row list, which is what the items list of
the record still holds at that moment. -/
def dedupFold : List Val → Nat → List Val → List String →
    List (String × Nat) →
    Except (List Val) (List Val × List String × List (String × Nat))
  | [], _, rows, seen, byRef => .ok (rows, seen, byRef)
  | row :: rest, i, rows, seen, byRef =>
    match row with
    | .dict rowEs =>
      let ref := dictGetD rowEs "reference"
      let anonCond := !pyTruthy ref ||
        (match ref with | .str s => pyStrip s == "" | _ => false)
      if anonCond then
        let anonKey := "__anon__" ++ toString seen.length
        dedupFold rest (i + 1) rows (seen ++ [anonKey])
          (idxSet byRef anonKey i)
      else
        match ref with
        | .str s =>
          let norm := pyStrip s
          match idxLookup byRef norm with
          | Option.none =>
            dedupFold rest (i + 1) rows (seen ++ [norm])
              (idxSet byRef norm i)
          | some exIdx =>
            match rows.getD exIdx .null with
            | .dict exEs =>
              let nonNull :=
                (rowEs.filter (fun kv => !isNEN kv.2)).length
              if nonNull ≤ 2 then
                let newQty := parseNumber (dictGetD rowEs "quantity")
                let exEs1 :=
                  match newQty with
                  | some q =>
                    if isNEN (dictGetD exEs "total_scrapped") &&
                        decide (q ≤ 50) &&
                        (match parseNumber (dictGetD exEs "quantity") with
                         | some p => p != q
                         | Option.none => true) then
                      dictSet exEs "total_scrapped"
                        (if qIsInt q then .num q false else .num q true)
                    else exEs
                  | Option.none => exEs
                let exEs2 := fillFields rebutDescriptorFields rowEs exEs1
                dedupFold rest (i + 1) (rows.set exIdx (.dict exEs2))
                  seen byRef
              else
                let exEs2 := mergeRich rowEs exEs
                dedupFold rest (i + 1) (rows.set exIdx (.dict exEs2))
                  seen byRef
            | _ => .error rows
        | _ => .error rows
    | _ => .error rows

/-- `deduplicate_rebut_items` of `process_forms.py`.  The `Except`
error carries the record as mutated when a mid-loop exception escapes
(the function has no internal `try`). -/
def deduplicateRebutItems (data : Val) : Except Val Val :=
  match data with
  | .dict es =>
    let items := pyOr (dictGetD es "items") (.list [])
    if !pyTruthy items then .ok data
    else
      match items with
      | .list rows =>
        match dedupFold rows 0 rows [] [] with
        | .ok (rowsF, seen, byRef) =>
          let newItems := seen.map (fun k =>
            match idxLookup byRef k with
            | some j => rowsF.getD j .null
            | Option.none => .null)
          .ok (.dict (dictSet es "items" (.list newItems)))
        | .error rowsPart =>
          .error (.dict (dictSet es "items" (.list rowsPart)))
      | _ => .error data
  | _ => .error data

/-! ### Rebut numeric normalization (`normalize_rebut_numeric_fields`) -/

def qtyCleanS (s : String) : String :=
  pyReplace (pyReplace (pyStrip s) (",") (".")) (" ") ("")

def numOfVal : Val → Option ℚ
  | .num q _ => some q
  | .bool b => some (boolQ b)
  | _ => Option.none

/-- Per-row body of `normalize_rebut_numeric_fields`. -/
def normalizeRebutRow (rowEs : List (String × Val)) : List (String × Val) :=
  let es1 :=
    match dictGetD rowEs "quantity" with
    | .str qs =>
      match parseSignedDec (qtyCleanS qs) with
      | some q =>
        dictSet rowEs "quantity" (if qIsInt q then .num q false else .num q true)
      | Option.none => dictSet rowEs "quantity" .null
    | _ => rowEs
  let es2 :=
    match dictGetD es1 "total_scrapped" with
    | .str ts =>
      let c := qtyCleanS ts
      if pyIsDigit c then
        dictSet es1 "total_scrapped" (.num (natOfDigitsS c : ℚ) false)
      else dictSet es1 "total_scrapped" .null
    | _ => es1
  match numOfVal (dictGetD es2 "quantity"),
      numOfVal (dictGetD es2 "total_scrapped") with
  | some q, some t =>
    if t > q * 5 && t > 50 then dictSet es2 "total_scrapped" .null else es2
  | _, _ => es2

def normRebutFold : List Val → List Val → Except (List Val) (List Val)
  | [], acc => .ok acc
  | row :: rest, acc =>
    match row with
    | .dict rowEs => normRebutFold rest (acc ++ [.dict (normalizeRebutRow rowEs)])
    | _ => .error (acc ++ (row :: rest))

/-- `normalize_rebut_numeric_fields` of `process_forms.py` (in-place row
mutation; a non-dict row raises mid-loop, leaving earlier rows
normalized).  When `data.get('items')` is falsy, `or []` substitutes a
fresh empty list and the record is left untouched. -/
def normalizeRebutNumericFields (data : Val) : Except Val Val :=
  match data with
  | .dict es =>
    let itemsV := dictGetD es "items"
    if !pyTruthy itemsV then .ok data
    else
      match itemsV with
      | .list rows =>
        match normRebutFold rows [] with
        | .ok rowsF => .ok (.dict (dictSet es "items" (.list rowsF)))
        | .error rowsPart =>
          .error (.dict (dictSet es "items" (.list rowsPart)))
      | _ => .error data
  | _ => .error data

/-! ### Regex language helpers for the anchored `re.match(^…$)` checks -/

/-- `re.match` with a trailing `$` also accepts one final newline. -/
def reCore (s : String) : List Char :=
  match s.data.reverse with
  | '\n' :: rest => rest.reverse
  | _ => s.data

def reFullIn (alts : List String) (s : String) : Bool :=
  alts.contains (String.mk (reCore s))

/-- `^(I{1,3}|IV|V|VI{0,3}|IX|X|[1-9]|10)$`. -/
def teamIdAlts : List String :=
  allowedRomans ++ ["1", "2", "3", "4", "5", "6", "7", "8", "9", "10"]

/-- `^\d{lo,hi}$` under `re.match`. -/
def reDigitsRange (lo hi : Nat) (s : String) : Bool :=
  let c := reCore s
  c.all Char.isDigit && lo ≤ c.length && c.length ≤ hi

/-- `^\d+$` under `re.match`. -/
def reDigitsPlus (s : String) : Bool :=
  let c := reCore s
  !c.isEmpty && c.all Char.isDigit

def isRefChar (c : Char) : Bool :=
  ('A' ≤ c && c ≤ 'Z') || c.isDigit || c == '-' || c == '/'

/-- `^[A-Z0-9 dash slash]{1,20}$` under `re.match` (the `Numéro OF`
reference pattern). -/
def reReference (s : String) : Bool :=
  let c := reCore s
  c.all isRefChar && 1 ≤ c.length && c.length ≤ 20

def isCodeChar (c : Char) : Bool :=
  ('A' ≤ c && c ≤ 'Z') || c.isDigit || c == '-'

/-- `re.fullmatch(r"[A-Z0-9\-]{1,10}", s)` (fullmatch: no newline
allowance). -/
def fullCodeMatch (s : String) : Bool :=
  s.data.all isCodeChar && 1 ≤ s.length && s.length ≤ 10

/-! ### The model gateway oracle and threading of the call counter -/

/-- Outcome of one `model.generate_content` call:
`fail` — the call raised, or returned a falsy response object (both turn
into `None` from `safe_model_call` and into an exception at the raw call
sites, which read `.text` on the result);
`noText` — a response whose `.text` is `None` (raw call sites substitute
`'{}'`, `safe_model_call` returns `None`);
`txt s` — a textual response. -/
inductive GwResp where
  | fail
  | noText
  | txt (s : String)

/-- Opaque-image outcome of a `PIL.Image.open` call site. -/
inductive ImgOpen where
  | ok
  | notFound
  | err

/-- The environment of one `extract_data_from_image` run: the gateway
oracle (indexed by call count), the outcome of each image-open call
site, and the number of crop images the filesystem-dependent gather
helpers produce (their pixel content never influences control flow). -/
structure Env where
  gw : Nat → GwResp
  mainOpen : ImgOpen
  defautsOpen : ImgOpen
  rebutCrops : Nat
  kosuCrops : Nat
  defautsCrops : Nat

/-- State-and-exception monad for the pipeline: the state is the number
of gateway calls made so far; a raised Python exception carries the
record as mutated at the moment of the raise. -/
def Pipe (α : Type) : Type := Nat → Except Val α × Nat

instance : Monad Pipe where
  pure a := fun n => (Except.ok a, n)
  bind m f := fun n =>
    match m n with
    | (Except.ok a, n') => f a n'
    | (Except.error e, n') => (Except.error e, n')

/-- One `model.generate_content` call. -/
def callGw (env : Env) : Pipe GwResp := fun n => (Except.ok (env.gw n), n + 1)

def throwD {α : Type} (d : Val) : Pipe α := fun n => (Except.error d, n)

/-- `try: … except: <resume with the carried record>` — the orchestrator
pattern where the record variable keeps the mutations already applied. -/
def tryD (m : Pipe Val) : Pipe Val := fun n =>
  match m n with
  | (Except.ok v, n') => (Except.ok v, n')
  | (Except.error d, n') => (Except.ok d, n')

def runPipe {α : Type} (m : Pipe α) (n : Nat) : Except Val α × Nat := m n

/-- `safe_model_call`: never raises; `None` on any failure, the raw
text otherwise (callers treat the empty string as falsy). -/
def safeModelCall (env : Env) : Pipe (Option String) := do
  let r ← callGw env
  match r with
  | .fail => pure Option.none
  | .noText => pure Option.none
  | .txt s => pure (some s)

/-- `hash(v)` succeeds (lists and dicts are unhashable). -/
def hashable : Val → Bool
  | .list _ => false
  | .dict _ => false
  | _ => true

/-! ### Confidence-retry orchestrator (`extract_with_confidence_retry`) -/

/-- Self-reported confidence: `data.get('extraction_confidence', 50)`,
replaced by 50 when not an int/float (`bool` passes `isinstance`). -/
def selfConfidence (des : List (String × Val)) : ℚ :=
  match listLookup des "extraction_confidence" with
  | some (.num q _) => q
  | some (.bool b) => boolQ b
  | _ => 50

/-- Completeness score: non-empty top-level fields over total fields,
times 100 (empty meaning `None`, `''`, `'null'` or `[]`). -/
def completenessScore (des : List (String × Val)) : ℚ :=
  let nonNull := ((des.filter (fun kv => !isNENL kv.2)).length : ℚ)
  let total := (des.length : ℚ)
  if des.length > 0 then nonNull / total * 100 else 0

/-- `combined_confidence = (confidence + completeness_confidence) / 2`. -/
def combinedScore (des : List (String × Val)) : ℚ :=
  (selfConfidence des + completenessScore des) / 2

/-- The retry loop of `extract_with_confidence_retry`; `attemptsLeft`
counts loop iterations still to run (`max_retries + 1` initially). -/
def confidenceRetryLoop (env : Env) :
    Nat → List (String × Val) → ℚ → Pipe Val
  | 0, best, _ => pure (.dict best)
  | Nat.succ rem, best, bestConf => do
    let t? ← safeModelCall env
    match t? with
    | Option.none => confidenceRetryLoop env rem best bestConf
    | some t =>
      if t == "" then confidenceRetryLoop env rem best bestConf
      else
        match safeJsonParse t (.dict []) with
        | .dict des =>
          let combined := combinedScore des
          let best' := if combined > bestConf then
              dictSet des "final_confidence" (.num combined true)
            else best
          let bestConf' := if combined > bestConf then combined else bestConf
          if combined ≥ 80 then pure (.dict best')
          else confidenceRetryLoop env rem best' bestConf'
        | _ => confidenceRetryLoop env rem best bestConf

/-- `extract_with_confidence_retry` (default `max_retries = 2`).  The
prompt string only flows to the gateway and is not part of the oracle's
index, so it is not a parameter here. -/
def extractWithConfidenceRetry (env : Env) (imagesCount : Nat)
    (maxRetries : Nat) : Pipe Val :=
  if imagesCount == 0 then pure (.dict [])
  else confidenceRetryLoop env (maxRetries + 1) [] 0

/-! ### `validate_extraction_against_template` -/

/-- The per-document-type rule table; `autofixNumber` marks the rules of
`type: 'number'`, the only ones with an auto-correct branch. -/
def templateRules (docType : String) :
    List (String × (String → Bool) × Bool) :=
  if docType == "Kosu" then
    [("Equipe", reFullIn teamIdAlts, false),
     ("Code ligne", reDigitsPlus, true),
     ("Semaine", reDigitsRange 1 2, false),
     ("Numéro OF", reReference, false)]
  else if docType == "NPT" then
    [("uap", reDigitsRange 1 3, true),
     ("equipe", reFullIn allowedRomans, false)]
  else if docType == "Rebut" then
    [("equipe", reFullIn allowedRomans, false),
     ("jap", reDigitsRange 1 4, true)]
  else []

/-- `validate_extraction_against_template`: the source mutates `data` in
place and returns `None` (its `warnings` list is discarded), so it is
modelled as returning the mutated record. -/
def validateExtractionAgainstTemplate (data : Val) (docType : String) : Val :=
  match data with
  | .dict es =>
    .dict ((templateRules docType).foldl (fun acc rule =>
      match dictGetD acc rule.1 with
      | .str v =>
        if v != "" && !rule.2.1 (pyStrip v) then
          if rule.2.2 then
            let cleanVal := digitsOf v
            if cleanVal != "" then dictSet acc rule.1 (.str cleanVal) else acc
          else acc
        else acc
      | _ => acc) es)
  | _ => data

/-! ### `cross_validate_fields` -/

def kosuOtherHeaderFields : List String :=
  ["Equipe", "Jour", "Semaine", "Numéro OF", "Ref PF"]

/-- The duplicate scan over `['Equipe','Jour','Semaine','Numéro OF',
'Ref PF']`: later fields holding an already-seen cleaned value are
nulled. -/
def cvOtherDupLoop : List String → List (String × Val) → List String →
    List (String × String) → List (String × Val) × List String
  | [], es, cs, _ => (es, cs)
  | f :: rest, es, cs, seen =>
    match dictGetD es f with
    | .str v =>
      if v != "" && pyStrip v != "" then
        let clean := pyLower (pyStrip v)
        match seen.lookup clean with
        | some firstField =>
          cvOtherDupLoop rest (dictSet es f .null)
            (cs ++ ["DUPLICATE VALUE: \x27" ++ v ++
              "\x27 appears in both \x27" ++ firstField ++
              "\x27 and \x27" ++ f ++ "\x27"]) seen
        | Option.none => cvOtherDupLoop rest es cs (seen ++ [(clean, f)])
      else cvOtherDupLoop rest es cs seen
    | _ => cvOtherDupLoop rest es cs seen

/-- `cross_validate_fields`, Kosu block 1: Code ligne MUST be numeric. -/
def cvKosuStep1 (es0 : List (String × Val)) :
    List (String × Val) × List String :=
  match dictGetD es0 "Code ligne" with
  | .str s =>
    if s != "" then
      let numericPart := digitsOf (pyStrip s)
      if numericPart == "" then
        (dictSet es0 "Code ligne" .null,
         ["INVALID: Code ligne \x27" ++ s ++
          "\x27 must be numeric - clearing value"])
      else if numericPart != pyStrip s then
        (dictSet es0 "Code ligne" (.str numericPart),
         ["CLEANED: Code ligne \x27" ++ s ++ "\x27 -> \x27" ++
          numericPart ++ "\x27 (extracted numbers)"])
      else (es0, [])
    else (es0, [])
  | v =>
    if pyTruthy v && !(match v with
        | .num _ _ => true | .bool _ => true | _ => false) then
      (dictSet es0 "Code ligne" .null,
       ["INVALID: Code ligne \x27" ++ pyStr v ++
        "\x27 must be numeric - clearing value"])
    else (es0, [])

/-- Kosu block 2: Nom Ligne MUST be text, not purely numeric (the
condition reads the ORIGINAL `nom_ligne` variable, the Code-ligne
emptiness test the refreshed dict). -/
def cvKosuStep2 (nomLigne : Val) (p : List (String × Val) × List String) :
    List (String × Val) × List String :=
  let es1 := p.1
  let cs1 := p.2
  match nomLigne with
  | .str s =>
    if s != "" && pyIsDigit (pyStrip s) then
      let cs := cs1 ++ ["INVALID: Nom Ligne \x27" ++ s ++
        "\x27 should be descriptive text, not a number"]
      if !pyTruthy (dictGetD es1 "Code ligne") then
        (dictSet (dictSet es1 "Code ligne" (.str (pyStrip s)))
          "Nom Ligne" .null,
         cs ++ ["MOVED: \x27" ++ s ++
          "\x27 moved from Nom Ligne to Code ligne"])
      else (dictSet es1 "Nom Ligne" .null, cs)
    else (es1, cs1)
  | v =>
    if pyTruthy v && (match v with
        | .num _ _ => true | .bool _ => true | _ => false) then
      let cs := cs1 ++ ["INVALID: Nom Ligne \x27" ++ pyStr v ++
        "\x27 should be text, not numeric"]
      if !pyTruthy (dictGetD es1 "Code ligne") then
        (dictSet (dictSet es1 "Code ligne" (.str (pyStr v)))
          "Nom Ligne" .null,
         cs ++ ["MOVED: \x27" ++ pyStr v ++
          "\x27 moved from Nom Ligne to Code ligne"])
      else (dictSet es1 "Nom Ligne" .null, cs)
    else (es1, cs1)

/-- Kosu block 3: duplicate Nom Ligne / Code ligne (refreshed values). -/
def cvKosuStep3 (p : List (String × Val) × List String) :
    List (String × Val) × List String :=
  let es2 := p.1
  let cs2 := p.2
  match dictGetD es2 "Nom Ligne", dictGetD es2 "Code ligne" with
  | .str n, .str c =>
    if n != "" && c != "" &&
        pyLower (pyStrip n) == pyLower (pyStrip c) then
      (dictSet es2 "Nom Ligne" .null,
       cs2 ++ ["DUPLICATE: Same value \x27" ++ n ++
        "\x27 in both Nom Ligne and Code ligne - clearing Nom Ligne"])
    else (es2, cs2)
  | _, _ => (es2, cs2)

/-- Kosu block 5: team identifier. -/
def cvKosuStep5 (p : List (String × Val) × List String) :
    List (String × Val) × List String :=
  let es4 := p.1
  let cs4 := p.2
  match dictGetD es4 "Equipe" with
  | .str e =>
    if e != "" && !reFullIn teamIdAlts (pyStrip e) then
      (dictSet es4 "Equipe" .null,
       cs4 ++ ["INVALID TEAM ID: \x27" ++ e ++
        "\x27 - should be Roman numeral I-X or digit 1-10"])
    else (es4, cs4)
  | _ => (es4, cs4)

/-- Kosu block 6: week number. -/
def cvKosuStep6 (p : List (String × Val) × List String) :
    List (String × Val) × List String :=
  let es5 := p.1
  let cs5 := p.2
  match dictGetD es5 "Semaine" with
  | .str w =>
    if w != "" then
      let weekNum := digitsOf w
      if weekNum != "" &&
          (natOfDigitsS weekNum < 1 || natOfDigitsS weekNum > 53) then
        (dictSet es5 "Semaine" .null,
         cs5 ++ ["INVALID WEEK: \x27" ++ w ++ "\x27 - should be 1-53"])
      else (es5, cs5)
    else (es5, cs5)
  | _ => (es5, cs5)

/-- The Kosu branch of `cross_validate_fields` (operating on the entry
dict and the corrections log): blocks 1, 2, 3, the other-field duplicate
scan, 5 and 6 in sequence. -/
def cvKosu (es0 : List (String × Val)) :
    List (String × Val) × List String :=
  let p3 := cvKosuStep3 (cvKosuStep2 (dictGetD es0 "Nom Ligne")
    (cvKosuStep1 es0))
  cvKosuStep6 (cvKosuStep5 (cvOtherDupLoop kosuOtherHeaderFields p3.1 p3.2 []))

/-- The NPT branch of `cross_validate_fields`. -/
def cvNpt (es0 : List (String × Val)) :
    List (String × Val) × List String :=
  match dictGetD es0 "uap" with
  | .str u =>
    if u != "" && !reDigitsRange 1 3 (pyStrip u) then
      let clean := digitsOf u
      if clean != "" then
        (dictSet es0 "uap" (.str clean),
         ["CLEANED UAP: \x27" ++ u ++ "\x27 -> \x27" ++ clean ++ "\x27"])
      else
        (dictSet es0 "uap" .null,
         ["INVALID UAP: \x27" ++ u ++ "\x27 - should be digits only"])
    else (es0, [])
  | _ => (es0, [])

/-- The Rebut branch of `cross_validate_fields`. -/
def cvRebut (es0 : List (String × Val)) :
    List (String × Val) × List String :=
  match dictGetD es0 "jap" with
  | .str j =>
    if j != "" && !reDigitsRange 1 4 (pyStrip j) then
      let clean := digitsOf j
      if clean != "" then
        (dictSet es0 "jap" (.str clean),
         ["CLEANED JAP: \x27" ++ j ++ "\x27 -> \x27" ++ clean ++ "\x27"])
      else
        (dictSet es0 "jap" .null,
         ["INVALID JAP: \x27" ++ j ++ "\x27 - should be digits only"])
    else (es0, [])
  | _ => (es0, [])

/-- `cross_validate_fields` of `process_forms.py` (its body never raises
for dict input, so the enclosing `try/except` is inert). -/
def crossValidateFields (data : Val) (docType : String) : Val :=
  match data with
  | .dict es0 =>
    let r :=
      if docType == "Kosu" then cvKosu es0
      else if docType == "NPT" then cvNpt es0
      else if docType == "Rebut" then cvRebut es0
      else (es0, [])
    if r.2.isEmpty then .dict r.1
    else
      .dict (dictSet r.1 "cross_validation_corrections"
        (.list (r.2.map Val.str)))
  | _ => data

/-! ### `final_sanity_check` -/

def finalSanityKosu (es0 : List (String × Val)) :
    List (String × Val) × List String :=
  let nomLigne := dictGetD es0 "Nom Ligne"
  let codeLigne := dictGetD es0 "Code ligne"
  let step1 : List (String × Val) × List String :=
    if pyTruthy codeLigne then
      match codeLigne with
      | .str s =>
        if !pyIsDigit (pyStrip s) then
          (dictSet es0 "Code ligne" .null,
           ["CRITICAL: Code ligne \x27" ++ s ++ "\x27 must be numeric only"])
        else (es0, [])
      | .num _ _ => (es0, [])
      | .bool _ => (es0, [])
      | v =>
        (dictSet es0 "Code ligne" .null,
         ["CRITICAL: Code ligne \x27" ++ pyStr v ++
          "\x27 has invalid type"])
    else (es0, [])
  let es1 := step1.1
  let cs1 := step1.2
  let step2 : List (String × Val) × List String :=
    if pyTruthy nomLigne then
      match nomLigne with
      | .str s =>
        if pyIsDigit (pyStrip s) then
          (dictSet es1 "Nom Ligne" .null,
           cs1 ++ ["CRITICAL: Nom Ligne \x27" ++ s ++
            "\x27 should be text, not numbers"])
        else (es1, cs1)
      | .num _ _ =>
        (dictSet es1 "Nom Ligne" .null,
         cs1 ++ ["CRITICAL: Nom Ligne \x27" ++ pyStr nomLigne ++
          "\x27 should be text, not numeric"])
      | .bool _ =>
        (dictSet es1 "Nom Ligne" .null,
         cs1 ++ ["CRITICAL: Nom Ligne \x27" ++ pyStr nomLigne ++
          "\x27 should be text, not numeric"])
      | _ => (es1, cs1)
    else (es1, cs1)
  let es2 := step2.1
  let cs2 := step2.2
  -- duplicate scan over the refreshed critical fields
  let critFields := ["Nom Ligne", "Code ligne", "Equipe"]
  let step3 := critFields.foldl (fun (acc : List (String × Val) ×
      List String × List (String × String)) f =>
    match dictGetD acc.1 f with
    | .str v =>
      if v != "" && pyStrip v != "" then
        let clean := pyLower (pyStrip v)
        match acc.2.2.lookup clean with
        | some firstField =>
          (dictSet acc.1 f .null,
           acc.2.1 ++ ["CRITICAL: Duplicate value \x27" ++ v ++
            "\x27 in \x27" ++ f ++ "\x27 and \x27" ++ firstField ++ "\x27"],
           acc.2.2)
        | Option.none => (acc.1, acc.2.1, acc.2.2 ++ [(clean, f)])
      else acc
    | _ => acc) (es2, cs2, [])
  let es3 := step3.1
  let cs3 := step3.2.1
  match dictGetD es3 "Equipe" with
  | e =>
    if pyTruthy e && !reFullIn teamIdAlts (pyStrip (pyStr e)) then
      (dictSet es3 "Equipe" .null,
       cs3 ++ ["INVALID: Equipe \x27" ++ pyStr e ++
        "\x27 should be Roman numeral I-X or digit 1-10"])
    else (es3, cs3)

/-- `final_sanity_check` of `process_forms.py` (total for dict input). -/
def finalSanityCheck (data : Val) (docType : String) : Val :=
  match data with
  | .dict es0 =>
    let r :=
      if docType == "Kosu" then finalSanityKosu es0
      else if docType == "NPT" then
        match dictGetD es0 "uap" with
        | u =>
          if pyTruthy u && !reDigitsRange 1 3 (pyStrip (pyStr u)) then
            (dictSet es0 "uap" .null,
             ["INVALID: UAP \x27" ++ pyStr u ++
              "\x27 must be 1-3 digits only"])
          else (es0, [])
      else if docType == "Rebut" then
        match dictGetD es0 "jap" with
        | j =>
          if pyTruthy j && !reDigitsRange 1 4 (pyStrip (pyStr j)) then
            (dictSet es0 "jap" .null,
             ["INVALID: JAP \x27" ++ pyStr j ++ "\x27 must be digits only"])
          else (es0, [])
      else (es0, [])
    if r.2.isEmpty then .dict r.1
    else .dict (dictSet r.1 "final_sanity_issues" (.list (r.2.map Val.str)))
  | _ => data

/-! ### `post_process_kosu` -/

/-- `isinstance(r, dict) and any(v not in (None, '', 'null') for v in
r.values())`. -/
def kosuRowHasData (r : Val) : Bool :=
  match r with
  | .dict res => res.any (fun kv => !isNEN kv.2)
  | _ => false

/-- The `Total / Equipe` loop: the digit test removes spaces, but the
conversion `int(float(v.strip().replace(',', '.')))` does not, so a
value with interior spaces fails `float` and the original is kept
(`except: pass`). -/
def totalEquipeClean (tes : List (String × Val)) : List (String × Val) :=
  tes.foldl (fun acc kv =>
    match kv.2 with
    | .str v =>
      if pyIsDigit (qtyCleanS v) then
        match parseSignedDec (pyReplace (pyStrip v) (",") (".")) with
        | some q => dictSet acc kv.1 (.num ((pyTruncQ q : ℤ) : ℚ) false)
        | Option.none => acc
      else acc
    | _ => acc) tes

/-- `post_process_kosu` of `process_forms.py`. -/
def postProcessKosu (data : Val) : Val :=
  match data with
  | .dict es0 =>
    let es1 :=
      match dictGetD es0 "Equipe" with
      | .str e =>
        if pyIsDigit (pyStrip e) then
          let digit := natOfDigitsS (pyStrip e)
          if 1 ≤ digit && digit ≤ 10 then
            match romanMap (digit : ℤ) with
            | some r => dictSet es0 "Equipe" (.str r)
            | Option.none => es0
          else es0
        else es0
      | .num q _ =>
        if 1 ≤ pyTruncQ q && pyTruncQ q ≤ 10 then
          match romanMap (pyTruncQ q) with
          | some r => dictSet es0 "Equipe" (.str r)
          | Option.none => es0
        else es0
      | .bool b =>
        if b then
          match romanMap 1 with
          | some r => dictSet es0 "Equipe" (.str r)
          | Option.none => es0
        else es0
      | _ => es0
    let es2 :=
      if dictMem es1 "Suivi horaire" then
        match dictGetD es1 "Suivi horaire" with
        | .list sh =>
          dictSet es1 "Suivi horaire" (.list (sh.filter kosuRowHasData))
        | _ => es1
      else
        -- `data.get('Suivi horaire', [])` defaults to a fresh list, which
        -- is then filtered to `[]` and written back, adding the key.
        dictSet es1 "Suivi horaire" (.list [])
    match dictGetD es2 "Total / Equipe" with
    | .dict tes =>
      .dict (dictSet es2 "Total / Equipe" (.dict (totalEquipeClean tes)))
    | _ => .dict es2
  | _ => data

/-! ### `normalize_all_dates` -/

/-- Apply date normalization to one root-level field. -/
def normRootDate (es : List (String × Val)) (key : String) :
    List (String × Val) :=
  if dictMem es key then
    let original := dictGetD es key
    match normalizeDateValue original with
    | some n => dictSet es key (.str n)
    | Option.none => es
  else es

/-- Apply date normalization to one nested field. -/
def normNestedDate (es : List (String × Val)) (parent key : String) :
    List (String × Val) :=
  if dictMem es parent then
    match dictGetD es parent with
    | .dict pes =>
      if dictMem pes key then
        let original := dictGetD pes key
        match normalizeDateValue original with
        | some n => dictSet es parent (.dict (dictSet pes key (.str n)))
        | Option.none => es
      else es
    | _ => es
  else es

/-- `normalize_all_dates` of `process_forms.py` (the Kosu `Jour` entry is
skipped by the source before normalizing). -/
def normalizeAllDates (data : Val) (docType : String) : Val :=
  match data with
  | .dict es =>
    if docType == "Rebut" || docType == "NPT" then
      .dict (normNestedDate es ("header") ("date"))
    else if docType == "Kosu" then
      .dict (normRootDate es ("Date du document"))
    else if docType == "Défauts" then
      .dict (normNestedDate
        (normNestedDate es ("entry_header") ("mois")) ("entry_header")
        ("annee"))
    else data
  | _ => data

/-! ### Raw model-call plumbing shared by the verification passes -/

/-- `txt = resp.text or '{}'` at the raw call sites (`none` = the call
raised or the response object was falsy, so `.text` raised). -/
def rawTextOf : GwResp → Option String
  | .fail => Option.none
  | .noText => some ("\x7b\x7d")
  | .txt s => some (if s == "" then "\x7b\x7d" else s)

/-- Fence extraction followed by `json.loads` (an `error` is the
`AttributeError` of `.group(1)` on a failed search, or the
`JSONDecodeError`). -/
def fenceLoads (t : String) : Except Unit Val :=
  match extractFence t with
  | Option.none => .error ()
  | some t2 =>
    match jsonLoads t2 with
    | Option.none => .error ()
    | some v => .ok v

/-- Association list keyed by Python values (`==`-based, as dict key
collision is); updating keeps the first key's position. -/
def vAssocFind {α : Type} : List (Val × α) → Val → Option α
  | [], _ => Option.none
  | (k, v) :: t, key => if pyEq k key then some v else vAssocFind t key

def vAssocSet {α : Type} : List (Val × α) → Val → α → List (Val × α)
  | [], k, v => [(k, v)]
  | (k', v') :: t, k, v =>
    if pyEq k' k then (k', v) :: t else (k', v') :: vAssocSet t k v

/-! ### Rebut model passes -/

/-- The verdict loop of `verify_rebut_totals`: clears `total_scrapped`
when the model marked the row `has_total: false` with non-low
confidence.  An unhashable reference raises `TypeError` mid-loop; the
enclosing `except` then returns the partially mutated record. -/
def vrtLoop (vmap : List (Val × (Val × Val))) :
    List Val → List Val → List Val
  | [], acc => acc
  | row :: rest, acc =>
    match row with
    | .dict res =>
      let ref := dictGetD res "reference"
      if !hashable ref then acc ++ (row :: rest)
      else
        match vAssocFind vmap ref with
        | some hv =>
          let clear := (match hv.1 with | .bool false => true | _ => false)
            && (pyEq hv.2 (.str "high") || pyEq hv.2 (.str "medium"))
          if clear then
            vrtLoop vmap rest (acc ++ [.dict (dictSet res "total_scrapped" .null)])
          else vrtLoop vmap rest (acc ++ [row])
        | Option.none => vrtLoop vmap rest (acc ++ [row])
    | _ => acc ++ (row :: rest)

/-- Build the `vmap` comprehension of `verify_rebut_totals`
(`error` = an unhashable `reference` key raised). -/
def vrtBuildVmap : List Val → List (Val × (Val × Val)) →
    Except Unit (List (Val × (Val × Val)))
  | [], acc => .ok acc
  | v :: rest, acc =>
    match v with
    | .dict vd =>
      let key := dictGetD vd "reference"
      if !hashable key then .error ()
      else
        vrtBuildVmap rest (vAssocSet acc key
          (dictGetD vd "has_total",
           match listLookup vd "confidence" with
           | some c => c
           | Option.none => .str "medium"))
    | _ => vrtBuildVmap rest acc

def rowsAllDicts (rows : List Val) : Bool :=
  rows.all (fun r => match r with | .dict _ => true | _ => false)

/-- `verify_rebut_totals` of `process_forms.py`. -/
def verifyRebutTotals (env : Env) (data : Val) : Pipe Val :=
  match data with
  | .dict es =>
    let itemsV := pyOr (dictGetD es "items") (.list [])
    if !pyTruthy itemsV then pure data
    else
      match itemsV with
      | .list rows =>
        -- the items_with_totals comprehension calls .get on every row
        if !rowsAllDicts rows then throwD data
        else
          let withTotals := rows.filter (fun r =>
            match r with
            | .dict res => !isNEN (dictGetD res "total_scrapped")
            | _ => false)
          if withTotals.isEmpty then pure data
          else do
            let r ← callGw env
            match rawTextOf r with
            | Option.none => pure data
            | some t =>
              match fenceLoads t with
              | .error _ => pure data
              | .ok v =>
                match v with
                | .dict ves =>
                  let verdictV :=
                    match listLookup ves "handwritten_totals" with
                    | some x => x
                    | Option.none => .list []
                  match verdictV with
                  | .list vs =>
                    match vrtBuildVmap vs [] with
                    | .error _ => pure data
                    | .ok vmap =>
                      pure (.dict (dictSet es "items"
                        (.list (vrtLoop vmap rows []))))
                  | .str _ =>
                    -- iterating a string yields characters, none a dict:
                    -- the vmap is empty and the loop changes nothing
                    pure data
                  | .dict _ => pure data
                  | _ => pure data   -- TypeError, caught by the except
                | _ => pure data     -- .get on a non-dict, caught
      | _ => throwD data
  | _ => throwD data

def rebutRecoverCheckFields : List String :=
  ["designation", "quantity", "unit", "type", "reference_fjk"]

def rebutRowKeys : List String :=
  ["reference", "reference_fjk", "designation", "quantity", "unit",
   "type", "total_scrapped"]

def refOf (r : Val) : Val :=
  match r with
  | .dict res => dictGetD res "reference"
  | _ => .null

/-- The cleaning loop over `additional_items` in
`recover_rebut_missing_rows`. -/
def rrmrClean (existingRefs : List Val) :
    List Val → List Val → Except Unit (List Val)
  | [], acc => .ok acc
  | a :: rest, acc =>
    match a with
    | .dict aes0 =>
      let aes := aes0.map (fun kv =>
        match kv.2 with
        | .str vs =>
          if pyLower (pyStrip vs) == "" || pyLower (pyStrip vs) == "null"
          then (kv.1, Val.null) else kv
        | _ => kv)
      let ref := dictGetD aes "reference"
      if !hashable ref then .error ()
      else if existingRefs.any (fun e => pyEq ref e) &&
          !(("designation" :: ["quantity", "unit", "type",
            "total_scrapped", "reference_fjk"]).any (fun k =>
              pyTruthy (dictGetD aes k))) then
        rrmrClean existingRefs rest acc
      else
        rrmrClean existingRefs rest
          (acc ++ [.dict (rebutRowKeys.map (fun k => (k, dictGetD aes k)))])
    | _ => rrmrClean existingRefs rest acc

/-- `recover_rebut_missing_rows` of `process_forms.py` (the `slim`
summary is built before the `try`, so a malformed items list raises
out of the pass). -/
def recoverRebutMissingRows (env : Env) (data : Val) : Pipe Val :=
  match data with
  | .dict es =>
    let itemsV := pyOr (dictGetD es "items") (.list [])
    match itemsV with
    | .list rows =>
      if !rowsAllDicts rows then throwD data
      else do
        let r ← callGw env
        match rawTextOf r with
        | Option.none => pure data
        | some t =>
          match fenceLoads t with
          | .error _ => pure data
          | .ok v =>
            match v with
            | .dict ves =>
              let addV :=
                match listLookup ves "additional_items" with
                | some x => x
                | Option.none => .list []
              -- `existing = {it.get('reference') for it in items}`
              if rows.any (fun rr => !hashable (refOf rr)) then pure data
              else
                let existingRefs := rows.map refOf
                match addV with
                | .list adds =>
                  match rrmrClean existingRefs adds [] with
                  | .error _ => pure data
                  | .ok cleaned =>
                    if cleaned.isEmpty then pure data
                    else
                      pure (.dict (dictSet es "items"
                        (.list (rows ++ cleaned))))
                | _ => pure data
            | _ => pure data
    | _ => throwD data
  | _ => throwD data

/-! ### Kosu model passes -/

def kosuHeaderFields : List String :=
  ["Equipe", "Nom Ligne", "Code ligne", "Jour", "Semaine", "Numéro OF",
   "Ref PF"]

/-- Do two distinct positions of the (non-empty-filtered) header values
hold `==` values?  (`duplicate_issues` is non-empty exactly then.) -/
def dupExists (vals : List Val) : Bool :=
  match vals with
  | [] => false
  | v :: rest => rest.any (fun w => pyEq v w) || dupExists rest

/-- The corrections-application loop of `verify_kosu_header`
(`error` = `field in data` raised on an unhashable field, propagating
out of the pass, which has no `try`). -/
def vkhApply : List Val → List (String × Val) →
    Except Unit (List (String × Val))
  | [], es => .ok es
  | c :: rest, es =>
    match c with
    | .dict cd =>
      let field := dictGetD cd "field"
      let correctValue := dictGetD cd "correct_value"
      match field with
      | .str fs =>
        if dictMem es fs then vkhApply rest (dictSet es fs correctValue)
        else vkhApply rest es
      | .list _ => .error ()
      | .dict _ => .error ()
      | _ => vkhApply rest es
    | _ => vkhApply rest es

/-- `verify_kosu_header` of `process_forms.py`. -/
def verifyKosuHeader (env : Env) (data : Val) : Pipe Val :=
  match data with
  | .dict es0 =>
    let nomLigne := dictGetD es0 "Nom Ligne"
    let codeLigne := dictGetD es0 "Code ligne"
    -- PRE-FIX 1: numeric Nom Ligne moved into an empty/identical Code ligne
    let es1 :=
      match nomLigne with
      | .str s =>
        if s != "" && pyIsDigit (pyStrip s) &&
            (!pyTruthy codeLigne || pyEq codeLigne nomLigne) then
          dictSet (dictSet es0 "Code ligne" (.str (pyStrip s)))
            "Nom Ligne" .null
        else es0
      | _ => es0
    -- PRE-FIX 2: textual Code ligne moved into an empty Nom Ligne
    -- (conditions read the original variables)
    let es2 :=
      match codeLigne with
      | .str s =>
        if s != "" && !pyIsDigit (pyStrip s) && !pyTruthy nomLigne then
          dictSet (dictSet es1 "Nom Ligne" (.str (pyStrip s)))
            "Code ligne" .null
        else es1
      | _ => es1
    let summaryVals := kosuHeaderFields.map (fun k => dictGetD es2 k)
    let hasDup := dupExists (summaryVals.filter (fun v => !isNEN v))
    if !hasDup && pyTruthy nomLigne && pyTruthy codeLigne then
      pure (.dict es2)
    else do
      let t? ← safeModelCall env
      match t? with
      | Option.none => pure (.dict es2)
      | some t =>
        if t == "" then pure (.dict es2)
        else
          let result := safeJsonParse t (.dict [])
          let corrections :=
            match result with
            | .dict res =>
              (match listLookup res "header_corrections" with
               | some x => x
               | Option.none => .list [])
            | _ => .list []
          match corrections with
          | .list cs =>
            match vkhApply cs es2 with
            | .ok es3 => pure (.dict es3)
            | .error _ => throwD (.dict es2)
          | .str _ => pure (.dict es2)
          | .dict _ => pure (.dict es2)
          | _ => throwD (.dict es2)   -- iterating a number raises
  | _ => pure data

/-- `recover_kosu_missing_header` of `process_forms.py` (`field in
empty_fields` is a list membership test — `==`-based, never raising). -/
def recoverKosuMissingHeader (env : Env) (data : Val) : Pipe Val :=
  match data with
  | .dict es0 =>
    let emptyFields := kosuHeaderFields.filter (fun k =>
      isNEN (dictGetD es0 k))
    if emptyFields.isEmpty then pure data
    else do
      let t? ← safeModelCall env
      match t? with
      | Option.none => pure data
      | some t =>
        if t == "" then pure data
        else
          let result := safeJsonParse t (.dict [])
          let recovered :=
            match result with
            | .dict res =>
              (match listLookup res "recovered_fields" with
               | some x => x
               | Option.none => .list [])
            | _ => .list []
          match recovered with
          | .list rs =>
            pure (.dict (rs.foldl (fun es rec =>
              match rec with
              | .dict rd =>
                let field := dictGetD rd "field"
                let value := dictGetD rd "value"
                match field with
                | .str fs =>
                  if emptyFields.contains fs && !isNEN value then
                    dictSet es fs value
                  else es
                | _ => es
              | _ => es) es0))
          | .str _ => pure data
          | .dict _ => pure data
          | _ => throwD data
  | _ => pure data

/-- The corrections loop of `verify_kosu_table_data`: `row_idx` must be
an `int` (`bool` included) in range; `field in suivi[row_idx]` may raise
when the addressed row is not a dict, leaving earlier mutations in
place. -/
def vktApply : List Val → List Val → Except (List Val) (List Val)
  | [], suivi => .ok suivi
  | c :: rest, suivi =>
    match c with
    | .dict cd =>
      let rowIdx := dictGetD cd "row_index"
      let field := dictGetD cd "field"
      let correctValue := dictGetD cd "correct_value"
      let idx? : Option Nat :=
        match rowIdx with
        | .num q false =>
          if q.den == 1 && decide (0 ≤ q.num) then some q.num.toNat
          else Option.none
        | .bool b => some (if b then 1 else 0)
        | _ => Option.none
      match idx? with
      | some i =>
        if i < suivi.length then
          match suivi.getD i .null with
          | .dict res =>
            match field with
            | .str fs =>
              if dictMem res fs &&
                  !(match correctValue with | .null => true | _ => false)
              then
                vktApply rest (suivi.set i (.dict (dictSet res fs correctValue)))
              else vktApply rest suivi
            | .list _ => .error suivi
            | .dict _ => .error suivi
            | _ => vktApply rest suivi
          | .list xs =>
            -- `field in <list>` is an ==-scan; a hit then attempts
            -- `list[field] = …`, a TypeError
            if xs.any (fun x => pyEq x field) then .error suivi
            else vktApply rest suivi
          | .str s =>
            match field with
            | .str fs =>
              if strContains s fs then .error suivi else vktApply rest suivi
            | _ => .error suivi
          | _ => .error suivi
        else vktApply rest suivi
      | Option.none => vktApply rest suivi
    | _ => vktApply rest suivi

/-- Would building `table_summary` raise?  (It calls `.keys()`/`.get` on
each of the first eight rows.) -/
def vktSummaryRaises (suivi : List Val) : Bool :=
  !rowsAllDicts (suivi.take 8)

/-- `verify_kosu_table_data` of `process_forms.py`. -/
def verifyKosuTableData (env : Env) (data : Val) : Pipe Val :=
  match data with
  | .dict es0 =>
    let suiviV := dictGetD es0 "Suivi horaire"
    if !pyTruthy suiviV then pure data
    else
      match suiviV with
      | .list suivi =>
        if vktSummaryRaises suivi then throwD data
        else do
          let t? ← safeModelCall env
          match t? with
          | Option.none => pure data
          | some t =>
            if t == "" then pure data
            else
              let result := safeJsonParse t (.dict [])
              let corrections :=
                match result with
                | .dict res =>
                  (match listLookup res "table_corrections" with
                   | some x => x
                   | Option.none => .list [])
                | _ => .list []
              match corrections with
              | .list cs =>
                match vktApply cs suivi with
                | .ok suivi' =>
                  pure (.dict (dictSet es0 "Suivi horaire" (.list suivi')))
                | .error suiviPart =>
                  throwD (.dict (dictSet es0 "Suivi horaire"
                    (.list suiviPart)))
              | .str _ => pure data
              | .dict _ => pure data
              | _ => throwD data
      | _ => throwD data   -- a truthy non-list raises in the summary
  | _ => pure data

/-! ### Défauts pure helpers -/

def defautsDayAliases : List (String × String) :=
  [("LUN", "Lun"), ("MAR", "Mar"), ("MER", "Mer"), ("JEU", "Jeu"),
   ("VEN", "Ven"), ("SAM", "Sam")]

/-- `normalize_defauts_records` of `process_forms.py` (raises on a
non-list argument or non-dict element). -/
def normalizeDefautsRecords : Val → Except Unit (List Val)
  | .list rs =>
    rs.foldlM (fun acc r =>
      match r with
      | .dict res =>
        let code := dictGetD res "code"
        let day := dictGetD res "day"
        let station := dictGetD res "station"
        let rawMark := dictGetD res "raw_mark"
        let count := normalizeDefautsMark rawMark
        let day' :=
          match day with
          | .str ds =>
            let d := pyTitle (pyStrip ds)
            match defautsDayAliases.lookup (pyUpper d) with
            | some a => Val.str a
            | Option.none => Val.str d
          | v => v
        let code' :=
          match code with
          | .str cs => Val.str (pyStrip cs)
          | v => v
        let station' :=
          match station with
          | .str ss => Val.str (pyUpper (pyStrip ss))
          | v => v
        .ok (acc ++ [Val.dict
          [("code", code'), ("day", day'), ("station", station'),
           ("raw_mark", rawMark),
           ("count", match count with
            | some z => Val.num (z : ℚ) false
            | Option.none => Val.null)]])
      | _ => .error ()) []
  | _ => .error ()

def defautsValidDays : List Val :=
  [.null, .str ("Lun"), .str ("Mar"), .str ("Mer"), .str ("Jeu"),
   .str ("Ven"), .str ("Sam")]

def defautsValidStations : List Val :=
  [.null, .str ("E1"), .str ("E2"), .str ("E3")]

/-- The loop of `refine_defauts_records` (the dedup key is a tuple put
into a `set`, so an unhashable component raises). -/
def refineGo (seen : List (Val × Val × Val × Val)) :
    List Val → Except Unit (List Val)
  | [] => .ok []
  | r :: rest =>
    match r with
    | .dict res =>
      let day0 := dictGetD res "day"
      let station0 := dictGetD res "station"
      let raw := dictGetD res "raw_mark"
      let code0 := dictGetD res "code"
      let count := dictGetD res "count"
      if isNEN raw && isNEN count then refineGo seen rest
      else
        let day := if defautsValidDays.any (fun v => pyEq day0 v)
          then day0 else Val.null
        let station :=
          if defautsValidStations.any (fun v => pyEq station0 v)
          then station0 else Val.null
        let code :=
          match code0 with
          | .str cs =>
            let c := pyUpper (pyStrip cs)
            if fullCodeMatch c then Val.str c else Val.null
          | v => v
        if !(hashable code && hashable day && hashable station &&
            hashable raw) then .error ()
        else
          let key := (code, day, station, raw)
          if seen.any (fun k => pyEq k.1 key.1 && pyEq k.2.1 key.2.1 &&
              pyEq k.2.2.1 key.2.2.1 && pyEq k.2.2.2 key.2.2.2) then
            refineGo seen rest
          else
            let res1 :=
              match count with
              | .num q false =>
                if q > 50 then dictSet res "count" .null else res
              | _ => res
            let res2 := dictSet (dictSet (dictSet res1 "code" code)
              "day" day) "station" station
            match refineGo (seen ++ [key]) rest with
            | .ok out => .ok (Val.dict res2 :: out)
            | .error e => .error e
    | _ => .error ()

/-- `refine_defauts_records` of `process_forms.py`. -/
def refineDefautsRecords (records : List Val) : Except Unit (List Val) :=
  refineGo [] records

/-- Python `<` between the values appearing in Défauts aggregation keys
(`None` and mixed types raise `TypeError`, as in `sorted`). -/
def pyLtV : Val → Val → Except Unit Bool
  | .num p _, .num q _ => .ok (decide (p < q))
  | .num p _, .bool b => .ok (decide (p < boolQ b))
  | .bool a, .num q _ => .ok (decide (boolQ a < q))
  | .bool a, .bool b => .ok (decide (boolQ a < boolQ b))
  | .str s, .str t => .ok (decide (s < t))
  | _, _ => .error ()

/-- Python tuple comparison for the `(day, station)` keys. -/
def keyLt (a b : Val × Val) : Except Unit Bool :=
  if pyEq a.1 b.1 then
    if pyEq a.2 b.2 then .ok false else pyLtV a.2 b.2
  else pyLtV a.1 b.1

/-- Stable insertion into a sorted list (Python's `sorted` is Timsort;
the set of compared pairs differs but the raise-on-incomparable-keys
behaviour and the resulting order agree on the unique dict keys the
source sorts). -/
def sortInsert (x : (Val × Val) × ℤ) :
    List ((Val × Val) × ℤ) → Except Unit (List ((Val × Val) × ℤ))
  | [] => .ok [x]
  | y :: rest =>
    match keyLt x.1 y.1 with
    | .error e => .error e
    | .ok true => .ok (x :: y :: rest)
    | .ok false =>
      match sortInsert x rest with
      | .ok r => .ok (y :: r)
      | .error e => .error e

def sortTotals : List ((Val × Val) × ℤ) →
    Except Unit (List ((Val × Val) × ℤ))
  | [] => .ok []
  | x :: rest =>
    match sortTotals rest with
    | .ok r => sortInsert x r
    | .error e => .error e

/-- `totals[key] = totals.get(key, 0) + int(c)` over a `==`-keyed
insertion-ordered mapping. -/
def addTotal (acc : List ((Val × Val) × ℤ)) (key : Val × Val) (z : ℤ) :
    List ((Val × Val) × ℤ) :=
  if acc.any (fun kv => pyEq kv.1.1 key.1 && pyEq kv.1.2 key.2) then
    acc.map (fun kv =>
      if pyEq kv.1.1 key.1 && pyEq kv.1.2 key.2 then (kv.1, kv.2 + z)
      else kv)
  else acc ++ [(key, z)]

/-- `compute_defauts_daily_totals` of `process_forms.py`. -/
def computeDefautsDailyTotals (records : List Val) :
    Except Unit (List Val) := do
  let totals ← records.foldlM (fun (acc : List ((Val × Val) × ℤ)) r =>
    match r with
    | .dict res =>
      let z? : Option (Option ℤ) :=
        match dictGetD res "count" with
        | .null => some Option.none          -- `if c is None: continue`
        | .num q _ => some (some (pyTruncQ q))
        | .bool b => some (some (if b then 1 else 0))
        | .str s =>
          (match pyIntOfStr s with            -- `int` parses int literals
           | some z => some (some z)
           | Option.none => Option.none)
        | _ => Option.none                   -- int(c) raises
      match z? with
      | some Option.none => .ok acc
      | some (some z) =>
        let day := dictGetD res "day"
        let station := dictGetD res "station"
        if !(hashable day && hashable station) then .error ()
        else .ok (addTotal acc (day, station) z)
      | Option.none => .error ()
    | _ => .error ()) []
  let sortedTotals ← sortTotals totals
  .ok (sortedTotals.map (fun kv =>
    Val.dict [("day", kv.1.1), ("station", kv.1.2),
      ("total_defauts", Val.num (kv.2 : ℚ) false)]))

/-! ### Défauts model passes -/

/-- `keep_map = {e.get('index'): e.get('keep') for e in … if
isinstance(e, dict)}` (`error` = unhashable index key). -/
def buildKeepMap : List Val → List (Val × Val) →
    Except Unit (List (Val × Val))
  | [], acc => .ok acc
  | e :: rest, acc =>
    match e with
    | .dict ed =>
      let key := dictGetD ed "index"
      if !hashable key then .error ()
      else buildKeepMap rest (vAssocSet acc key (dictGetD ed "keep"))
    | _ => buildKeepMap rest acc

/-- `[r for i, r in enumerate(recs) if keep_map.get(i) is not False]`. -/
def filterByKeep (keepMap : List (Val × Val)) :
    List Val → Nat → List Val
  | [], _ => []
  | r :: rest, i =>
    let drop :=
      match vAssocFind keepMap (.num (i : ℚ) false) with
      | some (.bool false) => true
      | _ => false
    if drop then filterByKeep keepMap rest (i + 1)
    else r :: filterByKeep keepMap rest (i + 1)

/-- `verify_defauts_marks` of `process_forms.py` (the `brief` summary is
built before the `try`, so malformed records raise out of the pass). -/
def verifyDefautsMarks (env : Env) (data : Val) : Pipe Val :=
  match data with
  | .dict es =>
    let recsV := pyOr (dictGetD es "recorded_defects") (.list [])
    if !pyTruthy recsV then pure data
    else
      match recsV with
      | .list recs =>
        if !rowsAllDicts recs then throwD data
        else do
          let r ← callGw env
          match rawTextOf r with
          | Option.none => pure data
          | some t =>
            match fenceLoads t with
            | .error _ => pure data
            | .ok parsed =>
              match parsed with
              | .dict pes =>
                let verifiedV :=
                  match listLookup pes "verified" with
                  | some x => x
                  | Option.none => .list []
                match verifiedV with
                | .list vs =>
                  match buildKeepMap vs [] with
                  | .error _ => pure data
                  | .ok keepMap =>
                    pure (.dict (dictSet es "recorded_defects"
                      (.list (filterByKeep keepMap recs 0))))
                | .str _ =>
                  pure (.dict (dictSet es "recorded_defects" (.list recs)))
                | .dict _ =>
                  pure (.dict (dictSet es "recorded_defects" (.list recs)))
                | _ => pure data
              | _ => pure data
      | _ => throwD data
  | _ => throwD data

def defautsKeyOf (r : Val) : Val × Val × Val :=
  match r with
  | .dict res =>
    (dictGetD res "code", dictGetD res "day", dictGetD res "station")
  | _ => (.null, .null, .null)

def keyHashable3 (k : Val × Val × Val) : Bool :=
  hashable k.1 && hashable k.2.1 && hashable k.2.2

def keyEq3 (a b : Val × Val × Val) : Bool :=
  pyEq a.1 b.1 && pyEq a.2.1 b.2.1 && pyEq a.2.2 b.2.2

/-- The cleaning loop over `additional` in
`recover_defauts_missing_marks`. -/
def recoverDefClean (presentKeys : List (Val × Val × Val)) :
    List Val → List Val → Except Unit (List Val)
  | [], acc => .ok acc
  | a :: rest, acc =>
    match a with
    | .dict aes =>
      let key := defautsKeyOf (.dict aes)
      if !keyHashable3 key then .error ()
      else if presentKeys.any (fun k => keyEq3 k key) then
        recoverDefClean presentKeys rest acc
      else if isNEN (dictGetD aes "raw_mark") then
        recoverDefClean presentKeys rest acc
      else recoverDefClean presentKeys rest (acc ++ [.dict aes])
    | _ => recoverDefClean presentKeys rest acc

/-- `recover_defauts_missing_marks` of `process_forms.py`. -/
def recoverDefautsMissingMarks (env : Env) (data : Val) : Pipe Val :=
  match data with
  | .dict es =>
    let recsV := pyOr (dictGetD es "recorded_defects") (.list [])
    match recsV with
    | .list recs =>
      if !rowsAllDicts recs then throwD data
      else do
        let r ← callGw env
        match rawTextOf r with
        | Option.none => pure data
        | some t =>
          match fenceLoads t with
          | .error _ => pure data
          | .ok parsed =>
            let addV :=
              match parsed with
              | .dict pes =>
                (match listLookup pes "additional" with
                 | some x => x
                 | Option.none => .list [])
              | _ => .list []
            -- the present_keys set build hashes each record's key
            if recs.any (fun rr => !keyHashable3 (defautsKeyOf rr)) then
              pure data
            else
              let presentKeys := recs.map defautsKeyOf
              match addV with
              | .list adds =>
                match recoverDefClean presentKeys adds [] with
                | .error _ => pure data
                | .ok cleaned =>
                  if cleaned.isEmpty then pure data
                  else
                    pure (.dict (dictSet es "recorded_defects"
                      (.list (recs ++ cleaned))))
              | .str _ => pure data
              | .dict _ => pure data
              | _ => pure data
    | _ => throwD data
  | _ => throwD data

/-! ### `extract_defauts_multi` -/

def defautsHeaderDefault : Val :=
  .dict [("uap", .null), ("ligne", .null), ("n_poste", .null),
    ("operation", .null), ("code_famillier", .null), ("semaine", .null),
    ("annee", .null), ("mois", .null)]

/-- `extract_defauts_multi` of `process_forms.py`.  Only
`FileNotFoundError` on the image open and failures of the primary call
are handled locally (both return `{}`); everything later — a non-dict
primary parse hitting `.get`, malformed `recorded_defects` hitting the
normalizer, unhashable or incomparable aggregation keys — propagates to
the caller. -/
def extractDefautsMulti (env : Env) : Pipe Val :=
  match env.defautsOpen with
  | .notFound => pure (.dict [])
  | .err => throwD .null
  | .ok => do
    let r ← callGw env
    match rawTextOf r with
    | Option.none => pure (.dict [])
    | some t =>
      match fenceLoads t with
      | .error _ => pure (.dict [])
      | .ok parsed =>
        match parsed with
        | .dict pes0 =>
          let pes1 :=
            if !pyEq (dictGetD pes0 "document_type") (.str "Défauts") then
              dictSet pes0 "document_type" (.str "Défauts")
            else pes0
          let pes2 := dictSetDefault pes1 "entry_header" defautsHeaderDefault
          let pes3 := dictSetDefault pes2 "recorded_defects" (.list [])
          let d1 ← verifyDefautsMarks env (.dict pes3)
          let d2 ← recoverDefautsMissingMarks env d1
          let d3 ← verifyDefautsMarks env d2
          match d3 with
          | .dict des =>
            match normalizeDefautsRecords (dictGetD des "recorded_defects")
              with
            | .error _ => throwD d3
            | .ok norm0 =>
              match refineDefautsRecords norm0 with
              | .error _ => throwD d3
              | .ok norm =>
                let des1 := dictSet des "recorded_defects" (.list norm)
                let des2 := dictSet des1 "defects_log" (.list norm)
                match computeDefautsDailyTotals norm with
                | .error _ => throwD (.dict des2)
                | .ok totals =>
                  let des3 := dictSet des2 "summary_data"
                    (.dict [("daily_totals", .list totals)])
                  pure (.dict [("data", .dict des3),
                    ("remark", .str ("Défauts extraction complete: " ++
                      toString norm.length ++ " marks (refined)"))])
          | _ => throwD d3
        | _ => throwD .null
        -- a non-dict parse raises at `parsed.get('document_type')`

/-! ### Targeted re-extraction -/

def targetedPromptFields : List String :=
  ["Equipe", "Nom Ligne", "Code ligne", "uap", "jap"]

def targetedLoop (env : Env) :
    List String → List (String × Val) → Pipe (List (String × Val))
  | [], es => pure es
  | f :: rest, es =>
    if targetedPromptFields.contains f then do
      let t? ← safeModelCall env
      match t? with
      | Option.none => targetedLoop env rest es
      | some t =>
        if t == "" then targetedLoop env rest es
        else
          match safeJsonParse t (.dict []) with
          | .dict fd =>
            if dictMem fd f && !isNEN (dictGetD fd f) then
              let oldV := dictGetD es f
              let newV := dictGetD fd f
              if !pyEq oldV newV then targetedLoop env rest (dictSet es f newV)
              else targetedLoop env rest es
            else targetedLoop env rest es
          | _ => targetedLoop env rest es
    else targetedLoop env rest es

/-- `targeted_field_reextraction` of `process_forms.py` (fields without
a known prompt are skipped without a model call). -/
def targetedFieldReextraction (env : Env) (data : Val)
    (problemFields : List String) : Pipe Val :=
  match data with
  | .dict es =>
    if problemFields.isEmpty then pure data
    else do
      let es' ← targetedLoop env problemFields es
      pure (.dict es')
  | _ => pure data

/-! ### Problem-field scanning in the orchestrator -/

/-- Python `needle in v` for the scanned warning/correction entries
(substring on strings, `==`-membership on lists, key membership on
dicts, `TypeError` otherwise). -/
def strInVal (needle : String) (v : Val) : Except Unit Bool :=
  match v with
  | .str s => .ok (strContains s needle)
  | .list xs => .ok (xs.any (fun x => pyEq x (.str needle)))
  | .dict es => .ok (dictMem es needle)
  | _ => .error ()

/-- One warning entry of the `validation_warnings` scan: a hit must be a
string (otherwise `.split` raises); short splits are skipped by the
inner `except IndexError`. -/
def scanOneWarning (w : Val) (acc : List String) :
    Except Unit (List String) :=
  match strInVal ("Field") w with
  | .error e => .error e
  | .ok false => .ok acc
  | .ok true =>
    match strInVal ("doesn\x27t match") w with
    | .error e => .error e
    | .ok false => .ok acc
    | .ok true =>
      match w with
      | .str s =>
        let parts := pySplitChar s '\x27'
        if parts.length ≥ 2 then .ok (acc ++ [parts.getD 1 ""])
        else .ok acc
      | _ => .error ()

def scanWarnings : Val → Except Unit (List String)
  | .list ws => ws.foldlM (fun acc w => scanOneWarning w acc) []
  | .str _ => .ok []   -- iterating a string yields 1-char strings,
                       -- none containing 'Field'
  | .dict des => des.foldlM (fun acc kv => scanOneWarning (.str kv.1) acc) []
  | _ => .error ()

/-- One correction entry of the `cross_validation_corrections` scan. -/
def scanOneCorrection (c : Val) (acc : List String) :
    Except Unit (List String) := do
  let b1 ← strInVal ("DUPLICATE VALUE") c
  let b2 ← strInVal ("INVALID") c
  let b3 ← strInVal ("SWAPPED") c
  if b1 || b2 || b3 then do
    let e1 ← strInVal ("Equipe") c
    let e2 ← strInVal ("Nom Ligne") c
    let e3 ← strInVal ("Code ligne") c
    pure ((acc ++ (if e1 then ["Equipe"] else [])) ++
      (if e2 then ["Nom Ligne"] else []) ++
      (if e3 then ["Code ligne"] else []))
  else pure acc

def scanCorrections : Val → Except Unit (List String)
  | .list cs => cs.foldlM (fun acc c => scanOneCorrection c acc) []
  | .str _ => .ok []
  | .dict des => des.foldlM (fun acc kv => scanOneCorrection (.str kv.1) acc) []
  | _ => .error ()

/-- `list(set(problem_fields))` — CPython's set order is
hash-randomized across runs; modelled as first-occurrence order (the
order only permutes which oracle index serves which field). -/
def dedupFirstGo (seen : List String) : List String → List String
  | [] => []
  | x :: rest =>
    if seen.contains x then dedupFirstGo seen rest
    else x :: dedupFirstGo (seen ++ [x]) rest

def dedupFirst (l : List String) : List String := dedupFirstGo [] l

def liftExc {α : Type} (m : Except Unit α) (carried : Val) : Pipe α :=
  match m with
  | .ok a => pure a
  | .error _ => throwD carried

def liftE (m : Except Val Val) : Pipe Val := fun n => (m, n)

/-! ### The orchestrator (`extract_data_from_image`) -/

/-- The document-type-specific verification passes (the first inner
`try` of the orchestrator). -/
def docPasses (env : Env) (docType : String) (data : Val) : Pipe Val :=
  if docType == "Rebut" then do
    let d1 ← verifyRebutTotals env data
    let d2 ← recoverRebutMissingRows env d1
    let d3 ← verifyRebutTotals env d2
    let d4 ← liftE (deduplicateRebutItems d3)
    let d5 ← verifyRebutTotals env d4
    liftE (normalizeRebutNumericFields d5)
  else if docType == "Kosu" then do
    let d1 ← verifyKosuHeader env data
    let d2 ← recoverKosuMissingHeader env d1
    let d3 ← verifyKosuTableData env d2
    pure (postProcessKosu d3)
  else pure data

/-- The validation-pipeline `try` of the orchestrator: template
validation, cross-field validation, problem-field collection, targeted
re-extraction, final sanity check. -/
def validationPipeline (env : Env) (docType : String) (data : Val) :
    Pipe Val :=
  let dataA := validateExtractionAgainstTemplate data docType
  let dataB := crossValidateFields dataA docType
  match dataB with
  | .dict esB => do
    let pf1 ←
      if dictMem esB "validation_warnings" then
        liftExc (scanWarnings (dictGetD esB "validation_warnings")) dataB
      else pure []
    let pf2 ←
      if dictMem esB "cross_validation_corrections" then
        liftExc (scanCorrections (dictGetD esB "cross_validation_corrections"))
          dataB
      else pure []
    let pf := dedupFirst (pf1 ++ pf2)
    let dataC ←
      if pf.isEmpty then pure dataB
      else targetedFieldReextraction env dataB pf
    pure (finalSanityCheck dataC docType)
  | _ => pure dataB

def primaryFailedPayload (docType : String) : Val :=
  .dict [("error", .str "Primary extraction failed"),
    ("document_type", .str docType)]

/-- The structured payload of the outermost `except` (the exception
text is opaque to the embedding). -/
def criticalPayload (docType : String) : Val :=
  .dict [("error", .str "Critical extraction error: <exception>"),
    ("document_type", .str docType)]

def missingParamsPayload : Val :=
  .dict [("error", .str "Missing image_path or doc_type")]

def imageNotFoundPayload : Val :=
  .dict [("error", .str "Image not found")]

def imageLoadFailedPayload : Val :=
  .dict [("error", .str "Image loading failed: <exception>")]

def unsupportedPayload (docType : String) : Val :=
  .dict [("error", .str ("Unsupported document type: " ++ docType))]

/-- The body of `extract_data_from_image` inside the outermost `try`. -/
def mainBody (env : Env) (imagePath docType : String) : Pipe Val :=
  if imagePath == "" || docType == "" then pure missingParamsPayload
  else if docType == "Défauts" || docType == "Defauts" then
    extractDefautsMulti env
  else
    match env.mainOpen with
    | .notFound => pure imageNotFoundPayload
    | .err => pure imageLoadFailedPayload
    | .ok =>
      if !(docType == "Rebut" || docType == "Kosu" || docType == "NPT")
      then pure (unsupportedPayload docType)
      else do
        let crops :=
          if docType == "Rebut" then env.rebutCrops
          else if docType == "Kosu" then env.kosuCrops
          else 0
        let imagesCount :=
          1 + (if (docType == "Rebut" || docType == "Kosu") && crops > 0
            then crops else 0)
        let data0 ← extractWithConfidenceRetry env imagesCount 2
        if !pyTruthy data0 then pure (primaryFailedPayload docType)
        else
          match data0 with
          | .dict des0 =>
            let data1 : Val :=
              .dict (dictSetDefault des0 "document_type" (.str docType))
            let data2 ← tryD (docPasses env docType data1)
            let data3 := normalizeAllDates data2 docType
            let data4 ← tryD (validationPipeline env docType data3)
            let data5 :=
              match data4 with
              | .null => .dict [("document_type", .str docType),
                  ("status", .str "extraction_failed")]
              | v => v
            pure (.dict [("data", data5),
              ("remark", .str (docType ++ " extraction complete"))])
          | _ => pure (primaryFailedPayload docType)

/-- `extract_data_from_image` of `process_forms.py`: the outermost
`try/except` makes it a total function into `Val`. -/
def extractDataFromImage (env : Env) (imagePath docType : String) : Val :=
  match mainBody env imagePath docType 0 with
  | (.ok v, _) => v
  | (.error _, _) => criticalPayload docType

/-- Number of gateway calls an `extract_data_from_image` run makes. -/
def extractCallCount (env : Env) (imagePath docType : String) : Nat :=
  (mainBody env imagePath docType 0).2

/-! ### Auxiliary notions used by the claim statements -/

/-- `v.get(k)` lifted to `Val` (non-dicts yield `None`; only applied to
dict rows in the claims below). -/
def valGetD (v : Val) (k : String) : Val :=
  match v with
  | .dict es => dictGetD es k
  | _ => .null

/-- Row `r'` keeps every populated (non-`None`, non-`''`, non-`'null'`)
field of row `r` unchanged. -/
def rowPreserves (r r' : Val) : Prop :=
  ∀ k : String, isNEN (valGetD r k) = false → valGetD r' k = valGetD r k

/-- A Rebut item row on which `deduplicate_rebut_items` cannot raise: a
dict whose `reference` is a string or falsy. -/
def rowWellFormed : Val → Bool
  | .dict res =>
    (match dictGetD res "reference" with
     | .str _ => true
     | v => !pyTruthy v)
  | _ => false

/-- The digit residue the UAP claim describes: the digit characters
remaining after uppercasing, stripping the literal `UAP` marker, and
stripping all non-digit characters. -/
def uapClaimResidue (s : String) : String :=
  digitsOf (pyReplace (pyUpper s) ("UAP") (""))

/-- Concrete gateway environment whose every response is a high-confidence
extraction (used to instantiate the retry-loop theorems). -/
def envRetry100 : Env :=
  ⟨fun _ => GwResp.txt ("\x7b\"extraction_confidence\": 100\x7d"),
   ImgOpen.ok, ImgOpen.ok, 0, 0, 0⟩

/-- The record `envRetry100`'s response decodes to. -/
def desRetry100 : List (String × Val) :=
  [("extraction_confidence", .num 100 false)]

/-- Concrete Rebut rows instantiating the deduplication frame theorem:
a populated first `R1` row, an interleaved `R2` row, and a sparse `R1`
duplicate. -/
def rebutRowsW : List Val :=
  [ .dict [("reference", .str ("R1")), ("quantity", .num 5 false),
           ("total_scrapped", .null), ("designation", .str ("casing")),
           ("unit", .null)],
    .dict [("reference", .str ("R2")), ("quantity", .num 7 false)],
    .dict [("reference", .str ("R1")), ("quantity", .num 3 false)] ]

/-- The record `deduplicate_rebut_items` returns on `rebutRowsW`. -/
def rebutOutW : Val :=
  .dict [("items", .list
    [ .dict [("reference", .str ("R1")), ("quantity", .num 5 false),
             ("total_scrapped", .num 3 false),
             ("designation", .str ("casing")), ("unit", .null)],
      .dict [("reference", .str ("R2")), ("quantity", .num 7 false)] ])]

/-- The merged first row of `rebutOutW`. -/
def rebutMergedW : Val :=
  .dict [("reference", .str ("R1")), ("quantity", .num 5 false),
         ("total_scrapped", .num 3 false),
         ("designation", .str ("casing")), ("unit", .null)]

/-- Entry list `es2` keeps every populated field of `es` unchanged (the
frame relation the merge helpers of `deduplicate_rebut_items` satisfy). -/
def preserveE (es es2 : List (String × Val)) : Prop :=
  ∀ k : String, isNEN (dictGetD es k) = false → dictGetD es2 k = dictGetD es k

/-- Gateway environment whose every response is undecodable text (used
for the orchestrator counterexample). -/
def envC1 : Env :=
  ⟨fun _ => GwResp.txt ("not json"), ImgOpen.ok, ImgOpen.ok, 0, 0, 0⟩

/-- The cleaned string the amended equipe claim describes (from the
spec's words): uppercase, fold `É` to `E`, delete the words `EQUIPE`
and `TEAM`, strip. -/
def equipeClaimClean (s : String) : String :=
  pyStrip (pyReplace (pyReplace (pyReplace
    (pyUpper (pyStrip s)) ("É") ("E")) ("EQUIPE") ("")) ("TEAM") (""))

/-- The claim's residue: the cleaned string with every character outside
`IVXLCDM` deleted. -/
def equipeClaimResidue (s : String) : String :=
  String.mk ((equipeClaimClean s).data.filter isRomanChar)

/-- The normalized reference key under which the dedup loop retains a
row (`none` for anonymous rows — falsy or blank-string reference; rows
with a truthy non-string reference raise before being keyed). -/
def rowRefKey : Val → Option String
  | .dict rowEs =>
    if !pyTruthy (dictGetD rowEs "reference") ||
        (match dictGetD rowEs "reference" with
         | .str s => pyStrip s == ""
         | _ => false) then Option.none
    else
      match dictGetD rowEs "reference" with
      | .str s => some (pyStrip s)
      | _ => Option.none
  | _ => Option.none

/-! ## Supporting lemmas -/

theorem listLookup_dictSet_self (es : List (String × Val)) (k : String)
    (v : Val) : listLookup (dictSet es k v) k = some v := by
  induction es with
  | nil => simp [dictSet, listLookup]
  | cons h t ih =>
    obtain ⟨k', v'⟩ := h
    by_cases hk : k' == k
    · simp [dictSet, hk, listLookup]
    · simp only [dictSet, hk]
      simp only [Bool.false_eq_true, if_false, listLookup, hk]
      exact ih

theorem listLookup_dictSet_ne (es : List (String × Val)) (k k' : String)
    (v : Val) (h : k ≠ k') : listLookup (dictSet es k' v) k = listLookup es k := by
  induction es with
  | nil =>
    simp only [dictSet, listLookup]
    rw [if_neg (by simpa using Ne.symm h)]
  | cons hd t ih =>
    obtain ⟨k2, v2⟩ := hd
    by_cases hk : k2 = k'
    · subst hk
      simp only [dictSet, beq_self_eq_true, if_true, listLookup]
      rw [if_neg (by simpa using Ne.symm h), if_neg (by simpa using Ne.symm h)]
    · simp only [dictSet, listLookup]
      rw [if_neg (by simpa using hk)]
      simp only [listLookup]
      by_cases hkk : k2 = k
      · subst hkk
        simp
      · rw [if_neg (by simpa using hkk), if_neg (by simpa using hkk)]
        exact ih

@[simp] theorem dictGetD_dictSet_self (es : List (String × Val))
    (k : String) (v : Val) : dictGetD (dictSet es k v) k = v := by
  simp [dictGetD, listLookup_dictSet_self]

theorem dictGetD_dictSet_ne (es : List (String × Val)) (k k' : String)
    (v : Val) (h : k ≠ k') : dictGetD (dictSet es k' v) k = dictGetD es k := by
  simp [dictGetD, listLookup_dictSet_ne es k k' v h]

/-! ### Character-level facts -/

theorem char_toNat_ofNat (n : Nat) (hv : Nat.isValidChar n) :
    (Char.ofNat n).toNat = n := by
  have hlt : n < 2 ^ 32 := by
    rcases hv with h | h
    · omega
    · omega
  simp [Char.ofNat, hv, Char.toNat, Char.ofNatAux, UInt32.toNat,
    BitVec.toNat_ofNat, Nat.mod_eq_of_lt hlt]

theorem isDigit_iff_toNat (c : Char) :
    c.isDigit = true ↔ 48 ≤ c.toNat ∧ c.toNat ≤ 57 := by
  simp [Char.isDigit, UInt32.le_def, BitVec.le_def, Char.toNat, UInt32.toNat]

theorem toUpper_of_isDigit {c : Char} (h : c.isDigit = true) :
    c.toUpper = c := by
  have h2 := (isDigit_iff_toNat c).mp h
  simp only [Char.toUpper]
  split
  · next hh => exfalso; omega
  · rfl

theorem toUpper_isDigit_false {c : Char} (h : c.isDigit = false) :
    (c.toUpper).isDigit = false := by
  simp only [Char.toUpper]
  split
  · next hh =>
    have hv : Nat.isValidChar (c.toNat - 32) := by left; omega
    have ht := char_toNat_ofNat (c.toNat - 32) hv
    rw [Bool.eq_false_iff]
    intro hd
    rw [isDigit_iff_toNat] at hd
    rw [ht] at hd
    omega
  · exact h

theorem toLower_of_isDigit {c : Char} (h : c.isDigit = true) :
    c.toLower = c := by
  have h2 := (isDigit_iff_toNat c).mp h
  simp only [Char.toLower]
  split
  · next hh => exfalso; omega
  · rfl

theorem toLower_isDigit_false {c : Char} (h : c.isDigit = false) :
    (c.toLower).isDigit = false := by
  simp only [Char.toLower]
  split
  · next hh =>
    have hv : Nat.isValidChar (c.toNat + 32) := by left; omega
    have ht := char_toNat_ofNat (c.toNat + 32) hv
    rw [Bool.eq_false_iff]
    intro hd
    rw [isDigit_iff_toNat] at hd
    rw [ht] at hd
    omega
  · exact h

theorem accentPairs_not_digit :
    ∀ p ∈ accentPairs, p.1.isDigit = false ∧ p.2.isDigit = false := by
  decide

theorem pyUpperChar_of_isDigit {c : Char} (h : c.isDigit = true) :
    pyUpperChar c = c := by
  have hnone : accentPairs.find? (fun p => p.1 == c) = none := by
    rw [List.find?_eq_none]
    intro p hp hbeq
    have hne := (accentPairs_not_digit p hp).1
    rw [beq_iff_eq] at hbeq
    rw [hbeq, h] at hne
    exact absurd hne (by simp)
  simp only [pyUpperChar, hnone]
  exact toUpper_of_isDigit h

theorem isDigit_pyUpperChar (c : Char) :
    (pyUpperChar c).isDigit = c.isDigit := by
  by_cases hd : c.isDigit = true
  · rw [pyUpperChar_of_isDigit hd]
  · have hd' : c.isDigit = false := by simpa using hd
    rw [hd']
    simp only [pyUpperChar]
    cases hfind : accentPairs.find? (fun p => p.1 == c) with
    | none => exact toUpper_isDigit_false hd'
    | some p => exact (accentPairs_not_digit p (List.mem_of_find?_eq_some hfind)).2

theorem pyLowerChar_of_isDigit {c : Char} (h : c.isDigit = true) :
    pyLowerChar c = c := by
  have hnone : accentPairs.find? (fun p => p.2 == c) = none := by
    rw [List.find?_eq_none]
    intro p hp hbeq
    have hne := (accentPairs_not_digit p hp).2
    rw [beq_iff_eq] at hbeq
    rw [hbeq, h] at hne
    exact absurd hne (by simp)
  simp only [pyLowerChar, hnone]
  exact toLower_of_isDigit h

theorem isDigit_pyLowerChar (c : Char) :
    (pyLowerChar c).isDigit = c.isDigit := by
  by_cases hd : c.isDigit = true
  · rw [pyLowerChar_of_isDigit hd]
  · have hd' : c.isDigit = false := by simpa using hd
    rw [hd']
    simp only [pyLowerChar]
    cases hfind : accentPairs.find? (fun p => p.2 == c) with
    | none => exact toLower_isDigit_false hd'
    | some p => exact (accentPairs_not_digit p (List.mem_of_find?_eq_some hfind)).1

theorem isWS_isDigit_false {c : Char} (h : isWS c = true) :
    c.isDigit = false := by
  simp only [isWS, Bool.or_eq_true, beq_iff_eq] at h
  rcases h with ((((h | h) | h) | h) | h) | h <;> (subst h; decide)

/-! ### Digit-residue invariance -/

theorem filter_dropWhile_of (p q : Char → Bool)
    (h : ∀ c, q c = true → p c = false) :
    ∀ l : List Char, (l.dropWhile q).filter p = l.filter p := by
  intro l
  induction l with
  | nil => rfl
  | cons c rest ih =>
    by_cases hq : q c = true
    · rw [List.dropWhile_cons_of_pos hq, ih, List.filter_cons,
        h c hq]
      simp
    · rw [List.dropWhile_cons_of_neg (by simpa using hq)]

theorem filter_rstripL (p : Char → Bool)
    (h : ∀ c, isWS c = true → p c = false) (l : List Char) :
    (rstripL l).filter p = l.filter p := by
  unfold rstripL
  rw [List.filter_reverse, filter_dropWhile_of p isWS h,
    List.filter_reverse, List.reverse_reverse]

theorem filter_stripL (p : Char → Bool)
    (h : ∀ c, isWS c = true → p c = false) (l : List Char) :
    (stripL l).filter p = l.filter p := by
  unfold stripL lstripL
  rw [filter_rstripL p h, filter_dropWhile_of p isWS h]

theorem digitsOf_pyStrip (s : String) :
    digitsOf (pyStrip s) = digitsOf s := by
  unfold digitsOf pyStrip
  rw [filter_stripL Char.isDigit (fun c hc => isWS_isDigit_false hc)]

theorem filter_map_fix (p : Char → Bool) (f : Char → Char)
    (hf : ∀ c, p (f c) = p c) (hfix : ∀ c, p c = true → f c = c) :
    ∀ l : List Char, (l.map f).filter p = l.filter p := by
  intro l
  induction l with
  | nil => rfl
  | cons c rest ih =>
    simp only [List.map_cons, List.filter_cons, hf c]
    by_cases hp : p c = true
    · rw [hp, hfix c hp]
      simp [ih]
    · have hp' : p c = false := by simpa using hp
      rw [hp']
      simp [ih]

theorem digitsOf_pyUpper (s : String) :
    digitsOf (pyUpper s) = digitsOf s := by
  unfold digitsOf pyUpper
  rw [filter_map_fix Char.isDigit pyUpperChar isDigit_pyUpperChar
    (fun c hc => pyUpperChar_of_isDigit hc)]

theorem dropPrefixL_filter (p : Char → Bool) :
    ∀ (pat l r : List Char), dropPrefixL pat l = some r →
    (∀ c ∈ pat, p c = false) → r.filter p = l.filter p := by
  intro pat
  induction pat with
  | nil =>
    intro l r h _
    simp [dropPrefixL] at h
    subst h
    rfl
  | cons pc pcs ih =>
    intro l r h hall
    match l with
    | [] => simp [dropPrefixL] at h
    | c :: cs =>
      simp only [dropPrefixL] at h
      split at h
      · next hceq =>
        have : pc = c := by simpa using hceq
        subst this
        rw [List.filter_cons, hall pc (by simp)]
        simp only [Bool.false_eq_true, if_false]
        exact ih cs r h (fun c2 hc2 => hall c2 (by simp [hc2]))
      · exact absurd h (by simp)

theorem replaceF_filter (p : Char → Bool) (pc : Char) (pcs : List Char)
    (hall : ∀ c ∈ pc :: pcs, p c = false) :
    ∀ (fuel : Nat) (l : List Char),
    (replaceF pc pcs [] fuel l).filter p = l.filter p := by
  intro fuel
  induction fuel with
  | zero => intro l; rfl
  | succ n ih =>
    intro l
    match l with
    | [] => rfl
    | c :: rest =>
      simp only [replaceF]
      split
      · next rem hrem =>
        rw [List.nil_append, ih rem,
          dropPrefixL_filter p (pc :: pcs) (c :: rest) rem hrem hall]
      · simp only [List.filter_cons]
        by_cases hp : p c = true
        · rw [hp]
          simp [ih rest]
        · have hp' : p c = false := by simpa using hp
          rw [hp']
          simp [ih rest]

theorem digitsOf_replace_uap (s : String) :
    digitsOf (pyReplace s ("UAP") ("")) = digitsOf s := by
  unfold digitsOf pyReplace
  simp only
  rw [replaceF_filter Char.isDigit 'U' ['A', 'P'] (by decide)]

theorem pyStr_str (s : String) : pyStr (.str s) = s := rfl

/-! ### Roman-numeral map facts (`normalize_equipe`) -/

theorem romanMap_isSome_iff (i : ℤ) :
    (romanMap i).isSome = true ↔ (1 ≤ i ∧ i ≤ 10) := by
  unfold romanMap
  split_ifs with h1 h2 h3 h4 h5 h6 h7 h8 h9 h10 <;> (simp_all; try omega)

theorem romanMap_sound (i : ℤ) (r : String) (h : romanMap i = some r) :
    allowedRomans.contains r = true := by
  unfold romanMap at h
  split_ifs at h <;> (cases h; decide)

theorem equipeFromStr_sound (s : String) (r : String)
    (h : equipeFromStr s = some r) : allowedRomans.contains r = true := by
  simp only [equipeFromStr] at h
  split at h
  · exact romanMap_sound _ _ h
  · split at h
    · rename_i hc
      cases h
      exact hc
    · exact absurd h (by simp)

theorem normalizeEquipe_str (s : String) :
    normalizeEquipe (.str s) = equipeFromStr s := rfl

theorem normalizeEquipe_listv (l : List Val) :
    normalizeEquipe (.list l) = equipeFromStr (pyStr (.list l)) := rfl

theorem normalizeEquipe_dictv (es : List (String × Val)) :
    normalizeEquipe (.dict es) = equipeFromStr (pyStr (.dict es)) := rfl

theorem normalizeEquipe_sound (v : Val) (r : String)
    (h : normalizeEquipe v = some r) : allowedRomans.contains r = true := by
  cases v with
  | null => exact absurd h (by simp [normalizeEquipe])
  | bool b => exact romanMap_sound _ _ h
  | num q f => exact romanMap_sound _ _ h
  | str s => rw [normalizeEquipe_str] at h; exact equipeFromStr_sound _ _ h
  | list l => rw [normalizeEquipe_listv] at h; exact equipeFromStr_sound _ _ h
  | dict es => rw [normalizeEquipe_dictv] at h; exact equipeFromStr_sound _ _ h

/-! ## Claim theorems -/

/-- C7: for every string input, `normalize_uap` returns exactly the digit
characters that remain after uppercasing and deleting the literal `UAP`
marker (the residue of `uapClaimResidue`, stated from the spec), rejected
with `None` when that residue is empty or longer than three digits; in
particular `normalize_uap("UAP042") = "042"` and
`normalize_uap("0.4") = "04"`. -/
theorem normalize_uap_digit_residue :
    (∀ s : String, normalizeUap (.str s) =
      (if uapClaimResidue s == "" then Option.none
       else if (uapClaimResidue s).length > 3 then Option.none
       else some (uapClaimResidue s))) ∧
    normalizeUap (.str ("UAP042")) = some ("042") ∧
    normalizeUap (.str ("0.4")) = some ("04") := by
  refine ⟨fun s => ?_, by with_unfolding_all rfl, by with_unfolding_all rfl⟩
  simp only [normalizeUap, pyIntOfNum]
  rw [pyStr_str, digitsOf_pyStrip, digitsOf_replace_uap, digitsOf_pyUpper,
    digitsOf_pyStrip]
  rw [show uapClaimResidue s = digitsOf s from by
    unfold uapClaimResidue
    rw [digitsOf_replace_uap, digitsOf_pyUpper]]

/-- C2 counterexample: `safe_json_parse` does not always return a mapping —
on the decodable non-object text `"[1, 2]"` it returns the decoded JSON
list, which is not a dict. -/
theorem safe_json_parse_nonmapping_cex :
    safeJsonParse ("[1, 2]") (.dict []) = .list [.num 1 false, .num 2 false] ∧
    (∀ es : List (String × Val),
      safeJsonParse ("[1, 2]") (.dict []) ≠ .dict es) := by
  have h : safeJsonParse ("[1, 2]") (.dict []) =
      .list [.num 1 false, .num 2 false] := by
    with_unfolding_all rfl
  refine ⟨h, ?_⟩
  intro es hc
  rw [h] at hc
  exact Val.noConfusion hc

/-- C2 (amended): `safe_json_parse` never raises and, for every text and
default, returns either `default or {}` (on empty text, missing fence
closure, decode failure, or a decoded `null`) or the successfully decoded
JSON value — which need not be a mapping. -/
theorem safe_json_parse_amended (text : String) (dflt : Val) :
    safeJsonParse text dflt = defaultOr dflt ∨
    (∃ t v, extractFence text = some t ∧ jsonLoads t = some v ∧
      v ≠ .null ∧ safeJsonParse text dflt = v) := by
  unfold safeJsonParse
  split
  · exact Or.inl rfl
  · split
    · exact Or.inl rfl
    · split
      · exact Or.inl rfl
      · exact Or.inl rfl
      · rename_i x1 t hf x4 v hne hj
        exact Or.inr ⟨t, v, hf, hj, fun h => hne h, rfl⟩

/-- C5 counterexample: the claim says strings containing letters outside
I, V, X (such as `"VII A"`) normalize to `None`, but the source filters
out the non-Roman characters first, so `normalize_equipe("VII A")`
returns `"VII"`. -/
theorem normalize_equipe_cex :
    normalizeEquipe (.str ("VII A")) = some ("VII") := by
  with_unfolding_all rfl

theorem normalizeEquipe_str_characterization (s : String) :
    normalizeEquipe (.str s) =
      (if pyIsDigit (equipeClaimClean s) then
        romanMap ((natOfDigitsS (equipeClaimClean s) : ℤ))
       else if allowedRomans.contains (equipeClaimResidue s) then
        some (equipeClaimResidue s)
       else Option.none) := by
  rw [normalizeEquipe_str]
  rfl

/-- C5 (amended): `normalize_equipe` maps a numeric input through
integer truncation and the Roman lookup (defined exactly on 1..10);
for EVERY string input the result is characterized by the claim's
cleaning: if the cleaned string is all digits it goes through the Roman
lookup of its value, otherwise the residue after deleting every
character outside IVXLCDM is returned exactly when it is one of the ten
numerals and anything else yields `None`; every successful result is one
of the ten allowed numerals (so `"Team A"` and `"2A"` yield `None`,
while `7` yields `"VII"`). -/
theorem normalize_equipe_amended :
    (∀ q : ℚ, ∀ f : Bool, normalizeEquipe (.num q f) = romanMap (pyTruncQ q)) ∧
    (∀ i : ℤ, (romanMap i).isSome = true ↔ (1 ≤ i ∧ i ≤ 10)) ∧
    (∀ s : String, normalizeEquipe (.str s) =
      (if pyIsDigit (equipeClaimClean s) then
        romanMap ((natOfDigitsS (equipeClaimClean s) : ℤ))
       else if allowedRomans.contains (equipeClaimResidue s) then
        some (equipeClaimResidue s)
       else Option.none)) ∧
    (∀ v r, normalizeEquipe v = some r → allowedRomans.contains r = true) ∧
    normalizeEquipe (.str ("Team A")) = Option.none ∧
    normalizeEquipe (.str ("2A")) = Option.none ∧
    normalizeEquipe (.num 7 false) = some ("VII") := by
  refine ⟨fun q f => rfl, romanMap_isSome_iff,
    normalizeEquipe_str_characterization, normalizeEquipe_sound,
    by with_unfolding_all rfl, by with_unfolding_all rfl,
    by with_unfolding_all rfl⟩

/-- C5 witness: the amended soundness component applied at the concrete
input `"VII A"`. -/
theorem normalize_equipe_amended_witness :
    allowedRomans.contains ("VII") = true :=
  normalize_equipe_amended.2.2.2.1 (.str ("VII A")) ("VII")
    (by with_unfolding_all rfl)

/-! ### Défauts mark facts (`normalize_defauts_mark`) -/

theorem isDigit_isWS_false {c : Char} (h : c.isDigit = true) :
    isWS c = false := by
  cases hw : isWS c
  · rfl
  · rw [isWS_isDigit_false hw] at h
    exact absurd h (by simp)

theorem map_id_of {α : Type} (f : α → α) :
    ∀ l : List α, (∀ c ∈ l, f c = c) → l.map f = l := by
  intro l h
  induction l with
  | nil => rfl
  | cons c cs ih =>
    rw [List.map_cons, h c (by simp), ih (fun c hc => h c (by simp [hc]))]

theorem dropWhile_eq_self_of {α : Type} (p : α → Bool) (l : List α)
    (h : ∀ c ∈ l, p c = false) : l.dropWhile p = l := by
  cases l with
  | nil => rfl
  | cons c cs => exact List.dropWhile_cons_of_neg (by simp [h c (by simp)])

theorem stripL_of_no_ws (l : List Char) (h : ∀ c ∈ l, isWS c = false) :
    stripL l = l := by
  unfold stripL lstripL rstripL
  rw [dropWhile_eq_self_of isWS l h,
    dropWhile_eq_self_of isWS l.reverse (fun c hc => h c (by simpa using hc)),
    List.reverse_reverse]

theorem pyStrip_fix (s : String) (h : ∀ c ∈ s.data, isWS c = false) :
    pyStrip s = s := by
  unfold pyStrip
  rw [stripL_of_no_ws s.data h]

theorem pyUpper_fix (s : String) (h : ∀ c ∈ s.data, pyUpperChar c = c) :
    pyUpper s = s := by
  unfold pyUpper
  rw [map_id_of pyUpperChar s.data h]

theorem beq_empty_false {s : String} (h : s.data ≠ []) : (s == "") = false := by
  rw [beq_eq_false_iff_ne]
  intro he
  subst he
  exact h rfl

theorem isEmpty_false_of (s : String) (h : s.data ≠ []) :
    s.isEmpty = false := by
  rw [Bool.eq_false_iff]
  intro he
  rw [String.isEmpty_iff] at he
  subst he
  exact h rfl

theorem span_all_append (p : Char → Bool) (l1 : List Char) (c : Char)
    (l2 : List Char) (h1 : ∀ x ∈ l1, p x = true) (hc : p c = false) :
    (l1 ++ c :: l2).span p = (l1, c :: l2) := by
  rw [List.span_eq_take_drop]
  induction l1 with
  | nil =>
    simp only [List.nil_append]
    rw [List.takeWhile_cons_of_neg (by simp [hc]),
      List.dropWhile_cons_of_neg (by simp [hc])]
  | cons a as ih =>
    have ih2 := ih (fun x hx => h1 x (by simp [hx]))
    simp only [List.cons_append]
    rw [List.takeWhile_cons_of_pos (by simp [h1 a (by simp)]),
      List.dropWhile_cons_of_pos (by simp [h1 a (by simp)])]
    rw [Prod.mk.injEq] at ih2 ⊢
    exact ⟨by rw [ih2.1], ih2.2⟩

/-- Strip and uppercase leave a string of digits and `X` marks unchanged. -/
theorem digit_clean_fix (s : String)
    (h : ∀ c ∈ s.data, c.isDigit = true ∨ c = 'X') :
    pyUpper (pyStrip s) = s := by
  rw [pyStrip_fix s (fun c hc => by
    rcases h c hc with hd | hx
    · exact isDigit_isWS_false hd
    · subst hx; decide)]
  exact pyUpper_fix s (fun c hc => by
    rcases h c hc with hd | hx
    · exact pyUpperChar_of_isDigit hd
    · subst hx; decide)

theorem normalizeDefautsMark_digits (s : String) (hne : s.data ≠ [])
    (hd : s.data.all Char.isDigit = true) :
    normalizeDefautsMark (.str s) = some ((natOfDigitsS s : ℤ)) := by
  simp only [normalizeDefautsMark]
  rw [digit_clean_fix s (fun c hc => Or.inl (by
    rw [List.all_eq_true] at hd
    exact hd c hc))]
  rw [beq_empty_false hne]
  have hdig : pyIsDigit s = true := by
    unfold pyIsDigit
    rw [isEmpty_false_of s hne, hd]
    rfl
  simp [hdig]

theorem normalizeDefautsMark_nX (s : String) (hne : s.data ≠ [])
    (hd : s.data.all Char.isDigit = true) :
    normalizeDefautsMark (.str (s ++ "X")) = some ((natOfDigitsS s : ℤ)) := by
  have hdata : (s ++ "X").data = s.data ++ ['X'] := by
    rw [String.data_append]
  have hall : ∀ c ∈ (s ++ "X").data, c.isDigit = true ∨ c = 'X' := by
    rw [hdata]
    intro c hc
    rcases List.mem_append.mp hc with h1 | h2
    · exact Or.inl (List.all_eq_true.mp hd c h1)
    · exact Or.inr (by simpa using h2)
  simp only [normalizeDefautsMark]
  rw [digit_clean_fix _ hall]
  rw [beq_empty_false (by rw [hdata]; simp)]
  have hnd : pyIsDigit (s ++ "X") = false := by
    unfold pyIsDigit
    rw [hdata]
    simp
  rw [hnd]
  simp only [Bool.false_eq_true, if_false]
  have hspan : spanDigits (s ++ "X").data = (s.data, ['X']) := by
    unfold spanDigits
    rw [hdata]
    exact span_all_append _ _ _ _ (fun x hx => List.all_eq_true.mp hd x hx)
      (by decide)
  rw [hspan]
  have hne2 : s.data.isEmpty = false := by
    rw [Bool.eq_false_iff]
    intro hE
    exact hne (List.isEmpty_iff.mp hE)
  simp only [hne2, Bool.not_false, Bool.true_and,
    (by decide : ((['X'] == ['X'])) = true), if_true]
  rfl

theorem normalizeDefautsMark_tally (n : Nat) (hn : 0 < n) :
    normalizeDefautsMark (.str (String.mk (List.replicate n 'X'))) =
      some ((n : ℤ)) := by
  have hdata : (String.mk (List.replicate n 'X')).data =
      List.replicate n 'X' := rfl
  have hall : ∀ c ∈ List.replicate n 'X', c.isDigit = true ∨ c = 'X' := by
    intro c hc
    exact Or.inr (List.eq_of_mem_replicate hc)
  simp only [normalizeDefautsMark]
  rw [digit_clean_fix _ hall]
  rw [beq_empty_false (by
    rw [hdata]
    intro h
    have hz : n = 0 := by simpa using congrArg List.length h
    omega)]
  obtain ⟨m, rfl⟩ : ∃ m, n = m + 1 := ⟨n - 1, by omega⟩
  have hrep : List.replicate (m + 1) 'X' = 'X' :: List.replicate m 'X' := by
    rfl
  have hnd : pyIsDigit (String.mk (List.replicate (m + 1) 'X')) = false := by
    unfold pyIsDigit
    rw [hdata, hrep]
    simp
  rw [hnd]
  simp only [Bool.false_eq_true, if_false]
  have hspan : spanDigits (String.mk (List.replicate (m + 1) 'X')).data =
      ([], 'X' :: List.replicate m 'X') := by
    unfold spanDigits
    rw [hdata, hrep, List.span_eq_take_drop,
      List.takeWhile_cons_of_neg (by decide),
      List.dropWhile_cons_of_neg (by decide)]
  rw [hspan]
  simp only [List.isEmpty_nil, Bool.not_true, Bool.false_and,
    Bool.false_eq_true, if_false]
  have htally : ((String.mk (List.replicate (m + 1) 'X')).data.isEmpty
        = false) ∧
      (String.mk (List.replicate (m + 1) 'X')).data.all isTally = true := by
    constructor
    · rw [hdata, hrep]; rfl
    · rw [hdata]
      rw [List.all_eq_true]
      intro c hc
      rw [List.eq_of_mem_replicate hc]
      decide
  rw [htally.1, htally.2]
  simp [hdata]

theorem normalizeDefautsMark_sound (s : String) (z : ℤ)
    (h : normalizeDefautsMark (.str s) = some z) :
    pyIsDigit (pyUpper (pyStrip s)) = true ∨
    ((spanDigits (pyUpper (pyStrip s)).data).1 ≠ [] ∧
      (spanDigits (pyUpper (pyStrip s)).data).2 = ['X']) ∨
    ((pyUpper (pyStrip s)).data ≠ [] ∧
      (pyUpper (pyStrip s)).data.all isTally = true) := by
  simp only [normalizeDefautsMark] at h
  split at h
  · exact absurd h (by simp)
  · split at h
    · rename_i hdig
      exact Or.inl hdig
    · split at h
      · rename_i hguard
        rw [Bool.and_eq_true] at hguard
        refine Or.inr (Or.inl ⟨?_, ?_⟩)
        · intro hnil
          have h1 := hguard.1
          rw [hnil] at h1
          simp at h1
        · have := hguard.2
          rwa [beq_iff_eq] at this
      · split at h
        · rename_i hguard
          rw [Bool.and_eq_true] at hguard
          refine Or.inr (Or.inr ⟨?_, hguard.2⟩)
          intro hnil
          rw [hnil] at hguard
          simp at hguard
        · exact absurd h (by simp)

/-- C9: the Défauts mark parser returns the integer value of any plain
digit string, `n` for any `nX` pattern, the repetition count for any
nonempty run of tally `X` characters (also for check-mark variants, e.g.
`"✔✔" = 2`), `None` for the empty string, and a successful parse only
arises from one of those three shapes of the cleaned mark. -/
theorem normalize_defauts_mark_forms :
    (∀ s : String, s.data ≠ [] → s.data.all Char.isDigit = true →
      normalizeDefautsMark (.str s) = some ((natOfDigitsS s : ℤ))) ∧
    (∀ s : String, s.data ≠ [] → s.data.all Char.isDigit = true →
      normalizeDefautsMark (.str (s ++ "X")) = some ((natOfDigitsS s : ℤ))) ∧
    (∀ n : Nat, 0 < n →
      normalizeDefautsMark (.str (String.mk (List.replicate n 'X'))) =
        some ((n : ℤ))) ∧
    normalizeDefautsMark (.str ("2X")) = some 2 ∧
    normalizeDefautsMark (.str ("XXX")) = some 3 ∧
    normalizeDefautsMark (.str ("✔✔")) = some 2 ∧
    normalizeDefautsMark (.str ("")) = Option.none ∧
    (∀ s z, normalizeDefautsMark (.str s) = some z →
      pyIsDigit (pyUpper (pyStrip s)) = true ∨
      ((spanDigits (pyUpper (pyStrip s)).data).1 ≠ [] ∧
        (spanDigits (pyUpper (pyStrip s)).data).2 = ['X']) ∨
      ((pyUpper (pyStrip s)).data ≠ [] ∧
        (pyUpper (pyStrip s)).data.all isTally = true)) := by
  refine ⟨normalizeDefautsMark_digits, normalizeDefautsMark_nX,
    normalizeDefautsMark_tally, by with_unfolding_all rfl,
    by with_unfolding_all rfl, by with_unfolding_all rfl,
    by with_unfolding_all rfl, normalizeDefautsMark_sound⟩

/-- C9 witness: the plain-digit component at the concrete mark `"7"`. -/
theorem normalize_defauts_mark_forms_witness :
    normalizeDefautsMark (.str ("7")) = some 7 :=
  normalize_defauts_mark_forms.1 ("7") (by decide) (by decide)

/-- C4: Rebut deduplication on an items list whose first row is
`{reference: "R1", quantity: 5, total_scrapped: null, …}` and whose later
sparse duplicate is `{reference: "R1", quantity: 3}` (two non-null fields,
`3 ≠ 5`, `3 ≤ 50`): the merged first row's `total_scrapped` becomes 3,
the result holds exactly one `"R1"` entry, and first-occurrence order is
preserved (`"R1"` still precedes the interleaved `"R2"` row). -/
theorem rebut_dedup_merge_instance :
    deduplicateRebutItems (.dict [("items", .list
      [ .dict [("reference", .str ("R1")), ("quantity", .num 5 false),
               ("total_scrapped", .null), ("designation", .str ("casing")),
               ("unit", .null)],
        .dict [("reference", .str ("R2")), ("quantity", .num 7 false)],
        .dict [("reference", .str ("R1")), ("quantity", .num 3 false)] ])]) =
    .ok (.dict [("items", .list
      [ .dict [("reference", .str ("R1")), ("quantity", .num 5 false),
               ("total_scrapped", .num 3 false),
               ("designation", .str ("casing")), ("unit", .null)],
        .dict [("reference", .str ("R2")), ("quantity", .num 7 false)] ])]) := by
  with_unfolding_all rfl

/-! ### Kosu cross-validation facts (`cross_validate_fields`) -/

theorem cvOtherDupLoop_frame (k : String) :
    ∀ (fields : List String) (es : List (String × Val)) (cs : List String)
      (seen : List (String × String)), k ∉ fields →
    dictGetD (cvOtherDupLoop fields es cs seen).1 k = dictGetD es k := by
  intro fields
  induction fields with
  | nil => intro es cs seen hk; rfl
  | cons f rest ih =>
    intro es cs seen hk
    have hkf : k ≠ f := fun h => hk (by simp [h])
    have hkrest : k ∉ rest := fun h => hk (by simp [h])
    simp only [cvOtherDupLoop]
    split
    · split
      · split
        · rw [ih _ _ _ hkrest, dictGetD_dictSet_ne _ _ _ _ hkf]
        · exact ih _ _ _ hkrest
      · exact ih _ _ _ hkrest
    · exact ih _ _ _ hkrest

theorem cvKosuStep5_frame (p : List (String × Val) × List String)
    (k : String) (hk : k ≠ "Equipe") :
    dictGetD (cvKosuStep5 p).1 k = dictGetD p.1 k := by
  simp only [cvKosuStep5]
  split
  · split
    · exact dictGetD_dictSet_ne _ _ _ _ hk
    · rfl
  · rfl

theorem cvKosuStep6_frame (p : List (String × Val) × List String)
    (k : String) (hk : k ≠ "Semaine") :
    dictGetD (cvKosuStep6 p).1 k = dictGetD p.1 k := by
  simp only [cvKosuStep6]
  split
  · split
    · split
      · exact dictGetD_dictSet_ne _ _ _ _ hk
      · rfl
    · rfl
  · rfl

theorem cvKosuStep3_of_null (p : List (String × Val) × List String)
    (h : dictGetD p.1 "Nom Ligne" = .null) : cvKosuStep3 p = p := by
  simp only [cvKosuStep3]
  split
  · rename_i n c hn hc
    rw [h] at hn
    exact Val.noConfusion hn
  · rfl

theorem cvKosuStep1_null (es0 : List (String × Val))
    (h : dictGetD es0 "Code ligne" = .null) : cvKosuStep1 es0 = (es0, []) := by
  simp only [cvKosuStep1]
  rw [h]
  rfl

theorem cvKosuStep1_emptyStr (es0 : List (String × Val))
    (h : dictGetD es0 "Code ligne" = .str "") :
    cvKosuStep1 es0 = (es0, []) := by
  simp only [cvKosuStep1]
  rw [h]
  rfl

theorem bne_true_of_ne {s : String} (h : s ≠ "") : (s != "") = true :=
  bne_iff_ne.mpr h

theorem cvKosuStep2_move (s : String) (p : List (String × Val) × List String)
    (hne : s ≠ "") (hdig : pyIsDigit (pyStrip s) = true)
    (hcode : pyTruthy (dictGetD p.1 "Code ligne") = false) :
    (cvKosuStep2 (.str s) p).1 =
      dictSet (dictSet p.1 "Code ligne" (.str (pyStrip s)))
        "Nom Ligne" .null := by
  simp only [cvKosuStep2, bne_true_of_ne hne, hdig, hcode, Bool.and_self,
    Bool.not_false, if_true]

theorem cvKosuStep2_nullonly (s : String)
    (p : List (String × Val) × List String)
    (hne : s ≠ "") (hdig : pyIsDigit (pyStrip s) = true)
    (hcode : pyTruthy (dictGetD p.1 "Code ligne") = true) :
    (cvKosuStep2 (.str s) p).1 = dictSet p.1 "Nom Ligne" .null := by
  simp only [cvKosuStep2, bne_true_of_ne hne, hdig, hcode, Bool.and_self,
    Bool.not_true, if_true, Bool.false_eq_true, if_false]

theorem digitsOf_all (c : String) (hd : c.data.all Char.isDigit = true) :
    digitsOf c = c := by
  unfold digitsOf
  rw [List.filter_eq_self.mpr (fun a ha => List.all_eq_true.mp hd a ha)]

theorem cvKosuStep1_digits (es0 : List (String × Val)) (c : String)
    (h : dictGetD es0 "Code ligne" = .str c) (hne : c.data ≠ [])
    (hd : c.data.all Char.isDigit = true) : cvKosuStep1 es0 = (es0, []) := by
  have hstrip : pyStrip c = c := pyStrip_fix c (fun a ha =>
    isDigit_isWS_false (List.all_eq_true.mp hd a ha))
  have hdig : digitsOf c = c := digitsOf_all c hd
  have hcne : c ≠ "" := fun hc => hne (by rw [hc])
  simp only [cvKosuStep1]
  rw [h]
  simp only [bne_true_of_ne hcne, if_true, hstrip, hdig,
    beq_empty_false hne, Bool.false_eq_true, if_false, bne_self_eq_false]

theorem cvKosu_move (es0 : List (String × Val)) (s : String)
    (hs : dictGetD es0 "Nom Ligne" = .str s) (hne : s ≠ "")
    (hdig : pyIsDigit (pyStrip s) = true)
    (hcode : dictGetD es0 "Code ligne" = .null ∨
      dictGetD es0 "Code ligne" = .str "") :
    dictGetD (cvKosu es0).1 "Nom Ligne" = .null ∧
    dictGetD (cvKosu es0).1 "Code ligne" = .str (pyStrip s) := by
  have hstep1 : cvKosuStep1 es0 = (es0, []) := by
    rcases hcode with h | h
    · exact cvKosuStep1_null es0 h
    · exact cvKosuStep1_emptyStr es0 h
  have hcode2 : pyTruthy (dictGetD es0 "Code ligne") = false := by
    rcases hcode with h | h <;> rw [h] <;> rfl
  have hm : (cvKosuStep2 (.str s) (es0, [])).1 =
      dictSet (dictSet es0 "Code ligne" (.str (pyStrip s)))
        "Nom Ligne" .null :=
    cvKosuStep2_move s (es0, []) hne hdig hcode2
  have hnom2 : dictGetD (cvKosuStep2 (.str s) (es0, [])).1 "Nom Ligne" =
      .null := by rw [hm]; exact dictGetD_dictSet_self _ _ _
  have hcode3 : dictGetD (cvKosuStep2 (.str s) (es0, [])).1 "Code ligne" =
      .str (pyStrip s) := by
    rw [hm, dictGetD_dictSet_ne _ _ _ _ (by decide)]
    exact dictGetD_dictSet_self _ _ _
  have hstep3 : cvKosuStep3 (cvKosuStep2 (.str s) (cvKosuStep1 es0)) =
      cvKosuStep2 (.str s) (es0, []) := by
    rw [hstep1]
    exact cvKosuStep3_of_null _ hnom2
  unfold cvKosu
  rw [hs, hstep3]
  constructor
  · rw [cvKosuStep6_frame _ _ (by decide), cvKosuStep5_frame _ _ (by decide),
      cvOtherDupLoop_frame _ _ _ _ _ (by decide)]
    exact hnom2
  · rw [cvKosuStep6_frame _ _ (by decide), cvKosuStep5_frame _ _ (by decide),
      cvOtherDupLoop_frame _ _ _ _ _ (by decide)]
    exact hcode3

theorem cvKosu_nullonly (es0 : List (String × Val)) (s c : String)
    (hs : dictGetD es0 "Nom Ligne" = .str s) (hne : s ≠ "")
    (hdig : pyIsDigit (pyStrip s) = true)
    (hc : dictGetD es0 "Code ligne" = .str c) (hcne : c.data ≠ [])
    (hcd : c.data.all Char.isDigit = true) :
    dictGetD (cvKosu es0).1 "Nom Ligne" = .null ∧
    dictGetD (cvKosu es0).1 "Code ligne" = .str c := by
  have hstep1 : cvKosuStep1 es0 = (es0, []) :=
    cvKosuStep1_digits es0 c hc hcne hcd
  have hctruthy : pyTruthy (dictGetD es0 "Code ligne") = true := by
    rw [hc]
    exact bne_true_of_ne (fun h2 => hcne (by rw [h2]))
  have hm : (cvKosuStep2 (.str s) (es0, [])).1 =
      dictSet es0 "Nom Ligne" .null :=
    cvKosuStep2_nullonly s (es0, []) hne hdig hctruthy
  have hnom2 : dictGetD (cvKosuStep2 (.str s) (es0, [])).1 "Nom Ligne" =
      .null := by rw [hm]; exact dictGetD_dictSet_self _ _ _
  have hcode3 : dictGetD (cvKosuStep2 (.str s) (es0, [])).1 "Code ligne" =
      .str c := by
    rw [hm, dictGetD_dictSet_ne _ _ _ _ (by decide)]
    exact hc
  have hstep3 : cvKosuStep3 (cvKosuStep2 (.str s) (cvKosuStep1 es0)) =
      cvKosuStep2 (.str s) (es0, []) := by
    rw [hstep1]
    exact cvKosuStep3_of_null _ hnom2
  unfold cvKosu
  rw [hs, hstep3]
  constructor
  · rw [cvKosuStep6_frame _ _ (by decide), cvKosuStep5_frame _ _ (by decide),
      cvOtherDupLoop_frame _ _ _ _ _ (by decide)]
    exact hnom2
  · rw [cvKosuStep6_frame _ _ (by decide), cvKosuStep5_frame _ _ (by decide),
      cvOtherDupLoop_frame _ _ _ _ _ (by decide)]
    exact hcode3

theorem valGetD_dict (es : List (String × Val)) (k : String) :
    valGetD (.dict es) k = dictGetD es k := rfl

theorem cvf_kosu_route (es0 : List (String × Val)) :
    crossValidateFields (.dict es0) ("Kosu") =
      (if (cvKosu es0).2.isEmpty then .dict (cvKosu es0).1
       else .dict (dictSet (cvKosu es0).1 ("cross_validation_corrections")
         (.list ((cvKosu es0).2.map Val.str)))) := rfl

theorem cvfKosu_move_part (es0 : List (String × Val)) (s : String)
    (hs : dictGetD es0 "Nom Ligne" = .str s) (hne : s ≠ "")
    (hdig : pyIsDigit (pyStrip s) = true)
    (hcode : dictGetD es0 "Code ligne" = .null ∨
      dictGetD es0 "Code ligne" = .str "") :
    valGetD (crossValidateFields (.dict es0) ("Kosu")) "Nom Ligne" = .null ∧
    valGetD (crossValidateFields (.dict es0) ("Kosu")) "Code ligne" =
      .str (pyStrip s) := by
  obtain ⟨h1, h2⟩ := cvKosu_move es0 s hs hne hdig hcode
  rw [cvf_kosu_route]
  split
  · rw [valGetD_dict, valGetD_dict]
    exact ⟨h1, h2⟩
  · rw [valGetD_dict, valGetD_dict,
      dictGetD_dictSet_ne _ _ _ _ (by decide),
      dictGetD_dictSet_ne _ _ _ _ (by decide)]
    exact ⟨h1, h2⟩

theorem cvfKosu_nullonly_part (es0 : List (String × Val)) (s c : String)
    (hs : dictGetD es0 "Nom Ligne" = .str s) (hne : s ≠ "")
    (hdig : pyIsDigit (pyStrip s) = true)
    (hc : dictGetD es0 "Code ligne" = .str c) (hcne : c.data ≠ [])
    (hcd : c.data.all Char.isDigit = true) :
    valGetD (crossValidateFields (.dict es0) ("Kosu")) "Nom Ligne" = .null ∧
    valGetD (crossValidateFields (.dict es0) ("Kosu")) "Code ligne" =
      .str c := by
  obtain ⟨h1, h2⟩ := cvKosu_nullonly es0 s c hs hne hdig hc hcne hcd
  rw [cvf_kosu_route]
  split
  · rw [valGetD_dict, valGetD_dict]
    exact ⟨h1, h2⟩
  · rw [valGetD_dict, valGetD_dict,
      dictGetD_dictSet_ne _ _ _ _ (by decide),
      dictGetD_dictSet_ne _ _ _ _ (by decide)]
    exact ⟨h1, h2⟩

/-- C3: for any Kosu record whose `Nom Ligne` is a nonempty string that
is purely numeric after stripping, the cross-validation pass nulls
`Nom Ligne`; if `Code ligne` was empty (`None` or `""`) the stripped
numeric value is moved into `Code ligne`, and if `Code ligne` already
held a (digit-string) value that value is kept while `Nom Ligne` is
simply nulled; in particular
`{"Nom Ligne": "15", "Code ligne": null}` becomes
`{"Nom Ligne": null, "Code ligne": "15"}` plus the two logged
corrections. -/
theorem cross_validate_numeric_nom_moved :
    (∀ (es0 : List (String × Val)) (s : String),
      dictGetD es0 "Nom Ligne" = .str s → s ≠ "" →
      pyIsDigit (pyStrip s) = true →
      (dictGetD es0 "Code ligne" = .null ∨
        dictGetD es0 "Code ligne" = .str "") →
      valGetD (crossValidateFields (.dict es0) ("Kosu")) "Nom Ligne" =
        .null ∧
      valGetD (crossValidateFields (.dict es0) ("Kosu")) "Code ligne" =
        .str (pyStrip s)) ∧
    (∀ (es0 : List (String × Val)) (s c : String),
      dictGetD es0 "Nom Ligne" = .str s → s ≠ "" →
      pyIsDigit (pyStrip s) = true →
      dictGetD es0 "Code ligne" = .str c → c.data ≠ [] →
      c.data.all Char.isDigit = true →
      valGetD (crossValidateFields (.dict es0) ("Kosu")) "Nom Ligne" =
        .null ∧
      valGetD (crossValidateFields (.dict es0) ("Kosu")) "Code ligne" =
        .str c) ∧
    crossValidateFields (.dict [("Nom Ligne", .str ("15")),
        ("Code ligne", .null)]) ("Kosu") =
      .dict [("Nom Ligne", .null), ("Code ligne", .str ("15")),
        ("cross_validation_corrections", .list
          [.str ("INVALID: Nom Ligne \x2715\x27 should be descriptive text, not a number"),
           .str ("MOVED: \x2715\x27 moved from Nom Ligne to Code ligne")])] := by
  refine ⟨cvfKosu_move_part, cvfKosu_nullonly_part, ?_⟩
  with_unfolding_all rfl

/-! ### Confidence-retry facts (`extract_with_confidence_retry`) -/

theorem safeModelCall_txt (env : Env) (n : Nat) (t : String)
    (henv : env.gw n = GwResp.txt t) :
    runPipe (safeModelCall env) n = (Except.ok (some t), n + 1) := by
  unfold runPipe safeModelCall callGw
  simp only [bind, Bind.bind]
  rw [henv]
  rfl

theorem confidenceRetryLoop_first_exit (env : Env) (n rem : Nat)
    (best : List (String × Val)) (bestConf : ℚ) (t : String)
    (des : List (String × Val))
    (henv : env.gw n = GwResp.txt t) (ht : (t == "") = false)
    (hp : safeJsonParse t (.dict []) = .dict des)
    (hgt : combinedScore des > bestConf) (hge : combinedScore des ≥ 80) :
    runPipe (confidenceRetryLoop env (rem + 1) best bestConf) n =
      (Except.ok (.dict (dictSet des "final_confidence"
        (.num (combinedScore des) true))), n + 1) := by
  have hsm := safeModelCall_txt env n t henv
  unfold runPipe at hsm ⊢
  simp only [confidenceRetryLoop, bind, Bind.bind]
  rw [hsm]
  simp only [ht, Bool.false_eq_true, if_false, hp]
  rw [if_pos hgt, if_pos hge]
  rfl

/-- C6: the combined score of an attempt is the arithmetic mean of the
model's self-reported confidence and the completeness score, and when
the first attempt's combined score reaches 80 the retry loop returns
that attempt's record (tagged with `final_confidence`) after exactly one
gateway call — no second primary-extraction model call happens. -/
theorem confidence_retry_mean_early_exit :
    (∀ des : List (String × Val),
      combinedScore des = (selfConfidence des + completenessScore des) / 2) ∧
    (∀ (env : Env) (n imagesCount maxRetries : Nat) (t : String)
      (des : List (String × Val)),
      (imagesCount == 0) = false →
      env.gw n = GwResp.txt t → (t == "") = false →
      safeJsonParse t (.dict []) = .dict des →
      combinedScore des ≥ 80 →
      runPipe (extractWithConfidenceRetry env imagesCount maxRetries) n =
        (Except.ok (.dict (dictSet des "final_confidence"
          (.num (combinedScore des) true))), n + 1)) := by
  refine ⟨fun des => rfl, ?_⟩
  intro env n ic mr t des him henv ht hp hge
  have hpos : combinedScore des > 0 :=
    lt_of_lt_of_le (by norm_num) hge
  unfold extractWithConfidenceRetry
  simp only [him, Bool.false_eq_true, if_false]
  exact confidenceRetryLoop_first_exit env n mr [] 0 t des henv ht hp hpos hge

/-- C6 witness: one image, `max_retries = 2`, a gateway whose first
response is a confidence-100 extraction — the pipeline returns it after
one call. -/
theorem confidence_retry_mean_early_exit_witness :
    runPipe (extractWithConfidenceRetry envRetry100 1 2) 0 =
      (Except.ok (.dict (dictSet desRetry100 "final_confidence"
        (.num (combinedScore desRetry100) true))), 0 + 1) :=
  confidence_retry_mean_early_exit.2 envRetry100 0 1 2
    ("\x7b\"extraction_confidence\": 100\x7d")
    desRetry100 (by decide) rfl (by decide)
    (by with_unfolding_all rfl)
    (by with_unfolding_all decide)

/-! ### Date-normalizer facts (`normalize_date_value`) -/

theorem normalizeDateLoop_none
    (ps : List ((List Char → Option (String × String × String)) × DTag))
    (s : String)
    (h : ∀ t ∈ dateTriplesOfAux ps s, isRealDate t.1 t.2.1 t.2.2 = false) :
    normalizeDateLoop ps s = Option.none := by
  induction ps with
  | nil => rfl
  | cons p rest ih =>
    obtain ⟨m, tag⟩ := p
    simp only [normalizeDateLoop]
    have hrest : ∀ t ∈ dateTriplesOfAux rest s,
        isRealDate t.1 t.2.1 t.2.2 = false := by
      intro t ht
      refine h t ?_
      unfold dateTriplesOfAux at ht ⊢
      simp only [List.filterMap_cons]
      cases (m s.data).map (fun g => dateTripleOfMatch tag g) with
      | none => exact ht
      | some x => exact List.mem_cons_of_mem x ht
    have htry : tryDatePattern m tag s = Option.none := by
      cases hm : m s.data with
      | none =>
        unfold tryDatePattern
        rw [hm]
      | some g =>
        have hmem : dateTripleOfMatch tag g ∈
            dateTriplesOfAux ((m, tag) :: rest) s := by
          unfold dateTriplesOfAux
          simp only [List.filterMap_cons, hm, Option.map_some]
          exact List.mem_cons_self _ _
        have ht := h _ hmem
        unfold tryDatePattern
        rw [hm]
        simp only [ht, Bool.not_false, if_true]
        split
        · rfl
        · split
          · rfl
          · split
            · rfl
            · rfl
    rw [htry]
    exact ih hrest

theorem normalizeDateValue_none_of_unreal (s : String)
    (h2 : ∀ t ∈ dateTriplesOf (pyStrip s), isRealDate t.1 t.2.1 t.2.2 = false)
    (h3 : (pyIsDigit (pyStrip s) && decide ((pyStrip s).length ≤ 5)) = false) :
    normalizeDateValue (.str s) = Option.none := by
  unfold normalizeDateValue
  split
  · rfl
  · simp only [pyStr_str]
    split
    · rfl
    · rw [normalizeDateLoop_none datePatterns (pyStrip s) h2, h3]
      rfl

/-- C8: the date normalizer returns `None` for every string input all of
whose pattern matches yield `(day, month, year)` triples that do not form
a real calendar date (the `datetime` validation, which rejects such
triples even when day ∈ [1,31], month ∈ [1,12] and year ∈ [1900,2100]),
provided the short-digit-string fallback does not apply; in particular
`normalize_date_value("31/02/2024") = None` — February has no 31st. -/
theorem normalize_date_rejects_invalid_triples :
    (∀ s : String,
      (∀ t ∈ dateTriplesOf (pyStrip s),
        isRealDate t.1 t.2.1 t.2.2 = false) →
      (pyIsDigit (pyStrip s) && decide ((pyStrip s).length ≤ 5)) = false →
      normalizeDateValue (.str s) = Option.none) ∧
    normalizeDateValue (.str ("31/02/2024")) = Option.none := by
  refine ⟨normalizeDateValue_none_of_unreal, ?_⟩
  with_unfolding_all rfl

/-! ### Rebut deduplication frame facts -/

theorem preserveE_refl (es : List (String × Val)) : preserveE es es :=
  fun _ _ => rfl

theorem preserveE_trans {a b c : List (String × Val)}
    (h1 : preserveE a b) (h2 : preserveE b c) : preserveE a c := by
  intro k hk
  rw [h2 k (by rw [h1 k hk]; exact hk), h1 k hk]

theorem preserveE_dictSet_nen (es : List (String × Val)) (k0 : String)
    (v : Val) (h : isNEN (dictGetD es k0) = true) :
    preserveE es (dictSet es k0 v) := by
  intro k hk
  by_cases hkk : k = k0
  · rw [hkk] at hk
    rw [hk] at h
    exact absurd h (by simp)
  · exact dictGetD_dictSet_ne _ _ _ _ hkk

theorem preserveE_fillFields (fields : List String)
    (rowEs : List (String × Val)) :
    ∀ es : List (String × Val), preserveE es (fillFields fields rowEs es) := by
  induction fields with
  | nil => intro es; exact preserveE_refl es
  | cons f rest ih =>
    intro es
    unfold fillFields
    rw [List.foldl_cons]
    refine preserveE_trans ?_ (ih _)
    by_cases hc : (isNEN (dictGetD es f) && !isNEN (dictGetD rowEs f)) = true
    · rw [show (if isNEN (dictGetD es f) && !isNEN (dictGetD rowEs f) then
          dictSet es f (dictGetD rowEs f) else es) =
          dictSet es f (dictGetD rowEs f) from if_pos hc]
      exact preserveE_dictSet_nen es f _ (by rw [Bool.and_eq_true] at hc; exact hc.1)
    · rw [show (if isNEN (dictGetD es f) && !isNEN (dictGetD rowEs f) then
          dictSet es f (dictGetD rowEs f) else es) = es from
          if_neg (by simpa using hc)]
      exact preserveE_refl es

theorem preserveE_mergeRich (rowEs : List (String × Val)) :
    ∀ es : List (String × Val), preserveE es (mergeRich rowEs es) := by
  unfold mergeRich
  induction rowEs with
  | nil => intro es; exact preserveE_refl es
  | cons kv rest ih =>
    intro es
    rw [List.foldl_cons]
    refine preserveE_trans ?_ (ih _)
    by_cases h1 : (kv.1 == "reference") = true
    · rw [if_pos h1]
      exact preserveE_refl es
    · rw [if_neg (by simpa using h1)]
      by_cases hc : (isNEN (dictGetD es kv.1) && !isNEN kv.2) = true
      · rw [if_pos hc]
        exact preserveE_dictSet_nen es kv.1 _ (by rw [Bool.and_eq_true] at hc; exact hc.1)
      · rw [if_neg (by simpa using hc)]
        exact preserveE_refl es

theorem getD_set_self_lt : ∀ (l : List Val) (n : Nat) (v d : Val),
    n < l.length → (l.set n v).getD n d = v := by
  intro l
  induction l with
  | nil => intro n v d h; simp at h
  | cons a as ih =>
    intro n v d h
    cases n with
    | zero => rfl
    | succ m =>
      simp only [List.set_cons_succ, List.getD_cons_succ]
      exact ih m v d (by simpa using h)

theorem getD_set_ne : ∀ (l : List Val) (n m : Nat) (v d : Val),
    n ≠ m → (l.set n v).getD m d = l.getD m d := by
  intro l
  induction l with
  | nil => intro n m v d h; rfl
  | cons a as ih =>
    intro n m v d h
    cases n with
    | zero =>
      cases m with
      | zero => exact absurd rfl h
      | succ m2 => rfl
    | succ n2 =>
      cases m with
      | zero => rfl
      | succ m2 =>
        simp only [List.set_cons_succ, List.getD_cons_succ]
        exact ih n2 m2 v d (fun hh => h (by rw [hh]))

theorem idxLookup_idxSet_self : ∀ (br : List (String × Nat)) (k : String)
    (i : Nat), idxLookup (idxSet br k i) k = some i := by
  intro br
  induction br with
  | nil => intro k i; simp [idxSet, idxLookup]
  | cons p rest ih =>
    intro k i
    simp only [idxSet]
    by_cases h : (p.1 == k) = true
    · obtain ⟨pk, pv⟩ := p
      simp only at h
      rw [if_pos h]
      simp [idxLookup]
    · obtain ⟨pk, pv⟩ := p
      simp only at h
      rw [if_neg h]
      simp only [idxLookup, h, Bool.false_eq_true, if_false]
      exact ih k i

theorem idxLookup_idxSet_ne : ∀ (br : List (String × Nat)) (k k2 : String)
    (i : Nat), k2 ≠ k → idxLookup (idxSet br k i) k2 = idxLookup br k2 := by
  intro br
  induction br with
  | nil =>
    intro k k2 i h
    simp only [idxSet, idxLookup]
    rw [if_neg (by simpa using (fun hh => h (by rw [hh]) : ¬ k = k2))]
  | cons p rest ih =>
    intro k k2 i h
    obtain ⟨pk, pv⟩ := p
    simp only [idxSet]
    by_cases hpk : (pk == k) = true
    · rw [if_pos hpk]
      have hkk2 : (k == k2) = false := by
        rw [beq_eq_false_iff_ne]
        exact fun hh => h hh.symm
      simp only [idxLookup, hkk2, Bool.false_eq_true, if_false]
      rw [beq_iff_eq] at hpk
      rw [hpk]
      simp only [idxLookup, hkk2, Bool.false_eq_true, if_false]
    · rw [if_neg hpk]
      simp only [idxLookup]
      by_cases hpk2 : (pk == k2) = true
      · rw [if_pos hpk2, if_pos hpk2]
      · rw [if_neg hpk2, if_neg hpk2]
        exact ih k k2 i h

theorem rowPreserves_refl (r : Val) : rowPreserves r r := fun _ _ => rfl

theorem rowPreserves_trans_dict {r : Val} {es es2 : List (String × Val)}
    (h1 : rowPreserves r (.dict es)) (h2 : preserveE es es2) :
    rowPreserves r (.dict es2) := by
  intro k hk
  have hv := h1 k hk
  have hnen : isNEN (dictGetD es k) = false := by
    show isNEN (valGetD (.dict es) k) = false
    rw [hv]
    exact hk
  show dictGetD es2 k = valGetD r k
  rw [h2 k hnen]
  exact hv

theorem preserveE_sparse (exEs rowEs : List (String × Val)) :
    preserveE exEs (fillFields rebutDescriptorFields rowEs
      (match parseNumber (dictGetD rowEs "quantity") with
       | some q =>
         if isNEN (dictGetD exEs "total_scrapped") &&
             decide (q ≤ 50) &&
             (match parseNumber (dictGetD exEs "quantity") with
              | some p => p != q
              | Option.none => true) then
           dictSet exEs "total_scrapped"
             (if qIsInt q then .num q false else .num q true)
         else exEs
       | Option.none => exEs)) := by
  refine preserveE_trans ?_ (preserveE_fillFields _ _ _)
  cases parseNumber (dictGetD rowEs "quantity") with
  | none => exact preserveE_refl exEs
  | some q =>
    by_cases hc : (isNEN (dictGetD exEs "total_scrapped") &&
        decide (q ≤ 50) &&
        (match parseNumber (dictGetD exEs "quantity") with
         | some p => p != q
         | Option.none => true)) = true
    · simp only [hc, if_true]
      refine preserveE_dictSet_nen exEs _ _ ?_
      rw [Bool.and_eq_true] at hc
      have h2 := hc.1
      rw [Bool.and_eq_true] at h2
      exact h2.1
    · simp only [hc, Bool.false_eq_true, if_false]
      exact preserveE_refl exEs

theorem dedupFold_inv (rows0 : List Val) :
    ∀ (rest : List Val) (i : Nat) (rows : List Val) (seen : List String)
      (byRef : List (String × Nat)) (rowsF : List Val) (seenF : List String)
      (byRefF : List (String × Nat)),
    dedupFold rest i rows seen byRef =
      Except.ok (rowsF, seenF, byRefF) →
    (∀ j : Nat, rowPreserves (rows0.getD j .null) (rows.getD j .null)) →
    (∀ (k : String) (j : Nat), idxLookup byRef k = some j →
      j < rows0.length) →
    (∀ k ∈ seen, ∃ j, idxLookup byRef k = some j) →
    i + rest.length = rows0.length →
    (∀ j : Nat, rowPreserves (rows0.getD j .null) (rowsF.getD j .null)) ∧
    (∀ (k : String) (j : Nat), idxLookup byRefF k = some j →
      j < rows0.length) ∧
    (∀ k ∈ seenF, ∃ j, idxLookup byRefF k = some j) := by
  intro rest
  induction rest with
  | nil =>
    intro i rows seen byRef rowsF seenF byRefF h hb hc he hd
    simp only [dedupFold] at h
    cases h
    exact ⟨hb, hc, he⟩
  | cons row rest ih =>
    intro i rows seen byRef rowsF seenF byRefF h hb hc he hd
    have hiN : i < rows0.length := by
      simp only [List.length_cons] at hd
      omega
    have hdN : (i + 1) + rest.length = rows0.length := by
      simp only [List.length_cons] at hd
      omega
    have hnewinv : ∀ key : String,
        (∀ (k : String) (j : Nat),
          idxLookup (idxSet byRef key i) k = some j → j < rows0.length) ∧
        (∀ k ∈ seen ++ [key], ∃ j,
          idxLookup (idxSet byRef key i) k = some j) := by
      intro key
      constructor
      · intro k j hkj
        by_cases hkk : k = key
        · rw [hkk, idxLookup_idxSet_self] at hkj
          cases hkj
          exact hiN
        · rw [idxLookup_idxSet_ne _ _ _ _ hkk] at hkj
          exact hc k j hkj
      · intro k hk
        rcases List.mem_append.mp hk with hk1 | hk2
        · by_cases hkk : k = key
          · exact ⟨i, by rw [hkk]; exact idxLookup_idxSet_self _ _ _⟩
          · obtain ⟨j, hj⟩ := he k hk1
            exact ⟨j, by rw [idxLookup_idxSet_ne _ _ _ _ hkk]; exact hj⟩
        · have : k = key := by simpa using hk2
          exact ⟨i, by rw [this]; exact idxLookup_idxSet_self _ _ _⟩
    simp only [dedupFold] at h
    split at h
    · -- row is a dict
      split at h
      · -- anon branch
        exact ih _ _ _ _ _ _ _ h hb (hnewinv _).1 (hnewinv _).2 hdN
      · -- named-reference branch
        split at h
        · -- ref is a string
          split at h
          · -- first occurrence
            exact ih _ _ _ _ _ _ _ h hb (hnewinv _).1 (hnewinv _).2 hdN
          · -- duplicate: merge
            split at h
            · -- existing row is a dict
              rename_i rowv rowEs hanonc refsc refs hrefeq osc exIdx hleq vsc exEs hrow
              have hbset : ∀ (exEs2 : List (String × Val)),
                  preserveE exEs exEs2 →
                  ∀ j : Nat, rowPreserves (rows0.getD j .null)
                    ((rows.set exIdx (.dict exEs2)).getD j .null) := by
                intro exEs2 hpre j
                by_cases hj : exIdx = j
                · subst hj
                  by_cases hlt : exIdx < rows.length
                  · rw [getD_set_self_lt _ _ _ _ hlt]
                    have hbx := hb exIdx
                    rw [hrow] at hbx
                    exact rowPreserves_trans_dict hbx hpre
                  · rw [List.set_eq_of_length_le (by omega)]
                    exact hb exIdx
                · rw [getD_set_ne _ _ _ _ _ hj]
                  exact hb j
              split at h
              · -- sparse duplicate
                exact ih _ _ _ _ _ _ _ h
                  (hbset _ (preserveE_sparse exEs rowEs)) hc he hdN
              · -- rich duplicate
                exact ih _ _ _ _ _ _ _ h
                  (hbset _ (preserveE_mergeRich rowEs exEs)) hc he hdN
            · exact absurd h (by simp)
        · exact absurd h (by simp)
    · exact absurd h (by simp)

theorem idxLookup_isSome_idxSet (br : List (String × Nat)) (k0 : String)
    (v : Nat) (k : String) (h : (idxLookup br k).isSome = true) :
    (idxLookup (idxSet br k0 v) k).isSome = true := by
  by_cases hk : k = k0
  · rw [hk, idxLookup_idxSet_self]
    rfl
  · rw [idxLookup_idxSet_ne _ _ _ _ hk]
    exact h

theorem dedupFold_first_inv (rows0 : List Val) :
    ∀ (rest : List Val) (i : Nat) (rows : List Val) (seen : List String)
      (byRef : List (String × Nat)) (rowsF : List Val) (seenF : List String)
      (byRefF : List (String × Nat)),
    dedupFold rest i rows seen byRef =
      Except.ok (rowsF, seenF, byRefF) →
    (∀ m : Nat, rest.getD m .null = rows0.getD (i + m) .null) →
    (∀ (k : String) (j : Nat), idxLookup byRef k = some j →
      ∀ norm : String, rowRefKey (rows0.getD j .null) = some norm →
        ∀ i2, i2 < j → rowRefKey (rows0.getD i2 .null) ≠ some norm) →
    (∀ i2, i2 < i → ∀ norm : String,
      rowRefKey (rows0.getD i2 .null) = some norm →
      (idxLookup byRef norm).isSome = true) →
    (∀ (k : String) (j : Nat), idxLookup byRefF k = some j →
      ∀ norm : String, rowRefKey (rows0.getD j .null) = some norm →
        ∀ i2, i2 < j → rowRefKey (rows0.getD i2 .null) ≠ some norm) := by
  intro rest
  induction rest with
  | nil =>
    intro i rows seen byRef rowsF seenF byRefF h hrest hf hg
    simp only [dedupFold] at h
    cases h
    exact hf
  | cons row rest ih =>
    intro i rows seen byRef rowsF seenF byRefF h hrest hf hg
    have hrow0 : row = rows0.getD i .null := by
      have h0 := hrest 0
      simpa using h0
    have hrest2 : ∀ m : Nat, rest.getD m .null =
        rows0.getD ((i + 1) + m) .null := by
      intro m
      have h2 := hrest (m + 1)
      simp only [List.getD_cons_succ] at h2
      rw [h2]
      congr 1
      omega
    simp only [dedupFold] at h
    split at h
    · -- row is a dict
      split at h
      · -- anonymous row
        rename_i rowEs hanonc
        have hkey : rowRefKey (rows0.getD i .null) = Option.none := by
          rw [← hrow0]
          unfold rowRefKey
          simp only []
          rw [if_pos hanonc]
        refine ih _ _ _ _ _ _ _ h hrest2 ?_ ?_
        · intro k j hkj norm hnorm i2 hi2
          by_cases hk : k = "__anon__" ++ toString seen.length
          · rw [hk, idxLookup_idxSet_self] at hkj
            cases hkj
            rw [hkey] at hnorm
            exact absurd hnorm (by simp)
          · rw [idxLookup_idxSet_ne _ _ _ _ hk] at hkj
            exact hf k j hkj norm hnorm i2 hi2
        · intro i2 hi2 norm hnorm
          by_cases hi2i : i2 = i
          · rw [hi2i, hkey] at hnorm
            exact absurd hnorm (by simp)
          · exact idxLookup_isSome_idxSet _ _ _ _
              (hg i2 (by omega) norm hnorm)
      · rename_i rowEs hanonc
        split at h
        · -- reference is a string
          rename_i s hrefeq
          have hanonc2 : ¬((!pyTruthy (Val.str s) ||
              (match Val.str s with
               | .str s2 => pyStrip s2 == ""
               | _ => false)) = true) := by
            rw [← hrefeq]
            exact hanonc
          have hkey : rowRefKey (rows0.getD i .null) =
              some (pyStrip s) := by
            rw [← hrow0]
            unfold rowRefKey
            simp only []
            rw [hrefeq]
            rw [if_neg hanonc2]
          split at h
          · -- first occurrence of this reference
            rename_i hlooknone
            refine ih _ _ _ _ _ _ _ h hrest2 ?_ ?_
            · intro k j hkj norm hnorm i2 hi2
              by_cases hk : k = pyStrip s
              · rw [hk, idxLookup_idxSet_self] at hkj
                cases hkj
                rw [hkey] at hnorm
                cases hnorm
                intro hc
                have hsome := hg i2 (by omega) _ hc
                rw [hlooknone] at hsome
                exact absurd hsome (by simp)
              · rw [idxLookup_idxSet_ne _ _ _ _ hk] at hkj
                exact hf k j hkj norm hnorm i2 hi2
            · intro i2 hi2 norm hnorm
              by_cases hi2i : i2 = i
              · rw [hi2i, hkey] at hnorm
                cases hnorm
                rw [idxLookup_idxSet_self]
                rfl
              · exact idxLookup_isSome_idxSet _ _ _ _
                  (hg i2 (by omega) norm hnorm)
          · -- duplicate: merge into the retained row
            rename_i exIdx hlooksome
            split at h
            · -- retained row is a dict
              have hg2 : ∀ i2, i2 < i + 1 → ∀ norm : String,
                  rowRefKey (rows0.getD i2 .null) = some norm →
                  (idxLookup byRef norm).isSome = true := by
                intro i2 hi2 norm hnorm
                by_cases hi2i : i2 = i
                · rw [hi2i, hkey] at hnorm
                  cases hnorm
                  rw [hlooksome]
                  rfl
                · exact hg i2 (by omega) norm hnorm
              split at h
              · exact ih _ _ _ _ _ _ _ h hrest2 hf hg2
              · exact ih _ _ _ _ _ _ _ h hrest2 hf hg2
            · exact absurd h (by simp)
        · exact absurd h (by simp)
    · exact absurd h (by simp)

/-- C10: `deduplicate_rebut_items` never replaces a populated
(non-`None`, non-`\x27\x27`, non-`\x27null\x27`) field of a retained
first-occurrence row: every row of the output items list preserves all
populated fields of the input row at some index `j`, and whenever that
row carries a (non-empty, stripped) reference key, `j` is the FIRST
index of the input list carrying that key — merging later duplicates
only fills fields whose current value is empty, `total_scrapped`
included. -/
theorem deduplicate_rebut_preserves_populated (es : List (String × Val)) (rows0 : List Val)
    (out : Val) (newItems : List Val)
    (hitems : dictGetD es "items" = .list rows0)
    (hok : deduplicateRebutItems (.dict es) = .ok out)
    (hni : valGetD out "items" = .list newItems) :
    ∀ r2 ∈ newItems, ∃ j, j < rows0.length ∧
      rowPreserves (rows0.getD j .null) r2 ∧
      ∀ norm : String, rowRefKey (rows0.getD j .null) = some norm →
        ∀ i, i < j → rowRefKey (rows0.getD i .null) ≠ some norm := by
  intro r2 hr2
  simp only [deduplicateRebutItems] at hok
  rw [hitems] at hok
  cases rows0 with
  | nil =>
    simp only [pyOr, pyTruthy, List.isEmpty_nil, Bool.not_true,
      Bool.false_eq_true, if_false, Bool.not_false, if_true] at hok
    cases hok
    rw [valGetD_dict, hitems] at hni
    cases hni
    simp at hr2
  | cons r rs =>
    simp only [pyOr, pyTruthy, List.isEmpty_cons, Bool.not_false,
      Bool.not_true, if_true, Bool.false_eq_true, if_false] at hok
    cases hfold : dedupFold (r :: rs) 0 (r :: rs) [] [] with
    | error e =>
      rw [hfold] at hok
      exact absurd hok (by simp)
    | ok res =>
      obtain ⟨rowsF, seenF, byRefF⟩ := res
      rw [hfold] at hok
      obtain ⟨hb2, hc2, he2⟩ := dedupFold_inv (r :: rs) (r :: rs) 0 (r :: rs)
        [] [] rowsF seenF byRefF hfold (fun j => rowPreserves_refl _)
        (fun k j hkj => by simp [idxLookup] at hkj)
        (fun k hk => by simp at hk) (by simp)
      have hfirst := dedupFold_first_inv (r :: rs) (r :: rs) 0 (r :: rs)
        [] [] rowsF seenF byRefF hfold (fun m => by simp)
        (fun k j hkj => by simp [idxLookup] at hkj)
        (fun i2 hi2 => by omega)
      cases hok
      rw [valGetD_dict, dictGetD_dictSet_self] at hni
      cases hni
      obtain ⟨k, hkseen, hkeq⟩ := List.mem_map.mp hr2
      obtain ⟨j, hj⟩ := he2 k hkseen
      rw [hj] at hkeq
      have hjlt := hc2 k j hj
      refine ⟨j, hjlt, ?_, ?_⟩
      · rw [← hkeq]
        exact hb2 j
      · intro norm hnorm i hij
        exact hfirst k j hj norm hnorm i hij

/-- C10 witness: the theorem applied to the concrete three-row Rebut
items list `rebutRowsW` and its merged first output row. -/
theorem deduplicate_rebut_preserves_populated_witness :
    ∃ j, j < rebutRowsW.length ∧
      rowPreserves (rebutRowsW.getD j .null) rebutMergedW ∧
      ∀ norm : String, rowRefKey (rebutRowsW.getD j .null) = some norm →
        ∀ i, i < j → rowRefKey (rebutRowsW.getD i .null) ≠ some norm :=
  deduplicate_rebut_preserves_populated
    [("items", .list rebutRowsW)] rebutRowsW rebutOutW
    [ rebutMergedW,
      .dict [("reference", .str ("R2")), ("quantity", .num 7 false)] ]
    (by with_unfolding_all rfl) (by with_unfolding_all rfl)
    (by with_unfolding_all rfl) rebutMergedW (List.mem_cons_self _ _)

/-! ### Orchestrator shape facts (`extract_data_from_image`) -/

theorem pipeBind_ok {α β : Type} (m : Pipe α) (f : α → Pipe β)
    (n n2 : Nat) (v : β)
    (h : (m >>= f) n = (Except.ok v, n2)) :
    ∃ a n1, m n = (Except.ok a, n1) ∧ f a n1 = (Except.ok v, n2) := by
  have h2 : (match m n with
      | (Except.ok a, n1) => f a n1
      | (Except.error e, n1) => (Except.error e, n1)) = (Except.ok v, n2) := h
  cases hm : m n with
  | mk r n1 =>
    rw [hm] at h2
    cases r with
    | ok a => exact ⟨a, n1, rfl, h2⟩
    | error e =>
      exact absurd h2 (by simp)

theorem pure_ok {α : Type} (a : α) (n n2 : Nat) (v : α)
    (h : (pure a : Pipe α) n = (Except.ok v, n2)) : v = a ∧ n2 = n := by
  have h2 : ((Except.ok a : Except Val α), n) = (Except.ok v, n2) := h
  rw [Prod.mk.injEq] at h2
  obtain ⟨h3, h4⟩ := h2
  cases h3
  exact ⟨rfl, h4.symm⟩

theorem throwD_not_ok {α : Type} (d : Val) (n n2 : Nat) (v : α)
    (h : (throwD d : Pipe α) n = (Except.ok v, n2)) : False := by
  have h2 : ((Except.error d : Except Val α), n) = (Except.ok v, n2) := h
  rw [Prod.mk.injEq] at h2
  exact Except.noConfusion h2.1

theorem extractDefautsMulti_ok_dict (env : Env) (n n2 : Nat) (v : Val)
    (h : extractDefautsMulti env n = (Except.ok v, n2)) :
    ∃ es, v = .dict es := by
  unfold extractDefautsMulti at h
  cases henv : env.defautsOpen
  all_goals rw [henv] at h
  case notFound => exact ⟨[], (pure_ok _ _ _ _ h).1⟩
  case err => exact absurd h (fun hh => throwD_not_ok _ _ _ _ hh)
  case ok =>
    obtain ⟨r, n1, hm, hk⟩ := pipeBind_ok _ _ _ _ _ h
    cases hrt : rawTextOf r
    all_goals rw [hrt] at hk
    case none => exact ⟨[], (pure_ok _ _ _ _ hk).1⟩
    case some t =>
      simp only [] at hk
      cases hfl : fenceLoads t
      all_goals rw [hfl] at hk
      case error e => exact ⟨[], (pure_ok _ _ _ _ hk).1⟩
      case ok parsed =>
        cases parsed
        case dict pes0 =>
          obtain ⟨d1, m1, hv1, hk1⟩ := pipeBind_ok _ _ _ _ _ hk
          obtain ⟨d2, m2, hv2, hk2⟩ := pipeBind_ok _ _ _ _ _ hk1
          obtain ⟨d3, m3, hv3, hk3⟩ := pipeBind_ok _ _ _ _ _ hk2
          cases d3
          case dict des =>
            simp only [] at hk3
            cases hno : normalizeDefautsRecords (dictGetD des "recorded_defects")
            all_goals rw [hno] at hk3
            case error e => exact absurd hk3 (fun hh => throwD_not_ok _ _ _ _ hh)
            case ok norm0 =>
              simp only [] at hk3
              cases hre : refineDefautsRecords norm0
              all_goals rw [hre] at hk3
              case error e =>
                exact absurd hk3 (fun hh => throwD_not_ok _ _ _ _ hh)
              case ok norm =>
                simp only [] at hk3
                cases hco : computeDefautsDailyTotals norm
                all_goals rw [hco] at hk3
                case error e =>
                  exact absurd hk3 (fun hh => throwD_not_ok _ _ _ _ hh)
                case ok totals =>
                  exact ⟨_, (pure_ok _ _ _ _ hk3).1⟩
          all_goals exact absurd hk3 (fun hh => throwD_not_ok _ _ _ _ hh)
        all_goals exact absurd hk (fun hh => throwD_not_ok _ _ _ _ hh)

theorem mainBody_ok_dict (env : Env) (p dt : String) (n n2 : Nat) (v : Val)
    (h : mainBody env p dt n = (Except.ok v, n2)) : ∃ es, v = .dict es := by
  unfold mainBody at h
  by_cases hc1 : (p == "" || dt == "") = true
  · rw [if_pos hc1] at h
    exact ⟨_, (pure_ok _ _ _ _ h).1⟩
  · rw [if_neg hc1] at h
    by_cases hc2 : (dt == "Défauts" || dt == "Defauts") = true
    · rw [if_pos hc2] at h
      exact extractDefautsMulti_ok_dict env n n2 v h
    · rw [if_neg hc2] at h
      cases henv : env.mainOpen
      all_goals rw [henv] at h
      case neg.notFound => exact ⟨_, (pure_ok _ _ _ _ h).1⟩
      case neg.err => exact ⟨_, (pure_ok _ _ _ _ h).1⟩
      case neg.ok =>
        by_cases hc3 : (!(dt == "Rebut" || dt == "Kosu" || dt == "NPT"))
            = true
        · rw [if_pos hc3] at h
          exact ⟨_, (pure_ok _ _ _ _ h).1⟩
        · rw [if_neg hc3] at h
          obtain ⟨data0, n1, hd0, hk⟩ := pipeBind_ok _ _ _ _ _ h
          simp only [] at hk
          by_cases hc4 : (!pyTruthy data0) = true
          · rw [if_pos hc4] at hk
            exact ⟨_, (pure_ok _ _ _ _ hk).1⟩
          · rw [if_neg hc4] at hk
            cases data0
            case neg.dict des0 =>
              simp only [] at hk
              obtain ⟨d2, m2, hv2, hk2⟩ := pipeBind_ok _ _ _ _ _ hk
              obtain ⟨d4, m4, hv4, hk4⟩ := pipeBind_ok _ _ _ _ _ hk2
              exact ⟨_, (pure_ok _ _ _ _ hk4).1⟩
            all_goals exact ⟨_, (pure_ok _ _ _ _ hk).1⟩

theorem mainBody_ok_data_or_error (env : Env) (p dt : String)
    (n n2 : Nat) (v : Val)
    (hd1 : (dt == "Défauts") = false) (hd2 : (dt == "Defauts") = false)
    (h : mainBody env p dt n = (Except.ok v, n2)) :
    ∃ es, v = .dict es ∧
      (dictMem es "data" = true ∨ dictMem es "error" = true) := by
  unfold mainBody at h
  by_cases hc1 : (p == "" || dt == "") = true
  · rw [if_pos hc1] at h
    exact ⟨_, (pure_ok _ _ _ _ h).1, Or.inr rfl⟩
  · rw [if_neg hc1] at h
    rw [hd1, hd2] at h
    simp only [Bool.or_self, Bool.false_eq_true, if_false,
      Bool.or_false, Bool.false_or] at h
    cases henv : env.mainOpen
    all_goals rw [henv] at h
    case neg.notFound => exact ⟨_, (pure_ok _ _ _ _ h).1, Or.inr rfl⟩
    case neg.err => exact ⟨_, (pure_ok _ _ _ _ h).1, Or.inr rfl⟩
    case neg.ok =>
      by_cases hc3 : (!(dt == "Rebut" || dt == "Kosu" || dt == "NPT"))
          = true
      · rw [if_pos hc3] at h
        exact ⟨_, (pure_ok _ _ _ _ h).1, Or.inr rfl⟩
      · rw [if_neg hc3] at h
        obtain ⟨data0, n1, hd0, hk⟩ := pipeBind_ok _ _ _ _ _ h
        try simp only [] at hk
        by_cases hc4 : (!pyTruthy data0) = true
        · rw [if_pos hc4] at hk
          exact ⟨_, (pure_ok _ _ _ _ hk).1, Or.inr rfl⟩
        · rw [if_neg hc4] at hk
          cases data0
          case neg.dict des0 =>
            simp only [] at hk
            obtain ⟨d2, m2, hv2, hk2⟩ := pipeBind_ok _ _ _ _ _ hk
            obtain ⟨d4, m4, hv4, hk4⟩ := pipeBind_ok _ _ _ _ _ hk2
            exact ⟨_, (pure_ok _ _ _ _ hk4).1, Or.inl rfl⟩
          all_goals exact ⟨_, (pure_ok _ _ _ _ hk).1, Or.inr rfl⟩


/-- C1 counterexample: with a gateway whose responses are undecodable
text, the Défauts path of `extract_data_from_image` returns the empty
dict — a structured mapping with neither `data` nor `error` keys — and
an unsupported document type yields an error payload that does not carry
the attempted document type. -/
theorem extract_data_shape_cex :
    extractDataFromImage envC1 ("img.png") ("Défauts") = .dict [] ∧
    dictMem ([] : List (String × Val)) "data" = false ∧
    dictMem ([] : List (String × Val)) "error" = false ∧
    extractDataFromImage envC1 ("img.png") ("Foo") =
      unsupportedPayload ("Foo") ∧
    valGetD (unsupportedPayload ("Foo")) "document_type" = .null := by
  refine ⟨by with_unfolding_all rfl, by decide, by decide,
    by with_unfolding_all rfl, by with_unfolding_all rfl⟩

/-- C1 (amended): `extract_data_from_image` is total and always returns
a dict (the outermost handler converts any raised exception into the
critical payload); for every non-Défauts document type the returned dict
has a `data` or an `error` key, while the Défauts path may return the
bare empty dict; the primary-failure and critical error payloads carry
the attempted document type (the missing-parameter, image-not-found and
unsupported-type payloads do not). -/
theorem extract_data_shape_amended :
    (∀ (env : Env) (p dt : String), ∃ es,
      extractDataFromImage env p dt = .dict es) ∧
    (∀ (env : Env) (p dt : String),
      (dt == "Défauts") = false → (dt == "Defauts") = false →
      ∃ es, extractDataFromImage env p dt = .dict es ∧
        (dictMem es "data" = true ∨ dictMem es "error" = true)) ∧
    (∀ dt, valGetD (primaryFailedPayload dt) "document_type" = .str dt) ∧
    (∀ dt, valGetD (criticalPayload dt) "document_type" = .str dt) := by
  refine ⟨?_, ?_, fun dt => rfl, fun dt => rfl⟩
  · intro env p dt
    unfold extractDataFromImage
    cases hmb : mainBody env p dt 0 with
    | mk r n2 =>
      cases r with
      | ok v => exact mainBody_ok_dict env p dt 0 n2 v hmb
      | error e => exact ⟨_, rfl⟩
  · intro env p dt hd1 hd2
    unfold extractDataFromImage
    cases hmb : mainBody env p dt 0 with
    | mk r n2 =>
      cases r with
      | ok v => exact mainBody_ok_data_or_error env p dt 0 n2 v hd1 hd2 hmb
      | error e => exact ⟨_, rfl, Or.inr rfl⟩


end FormsPipeline
